import Mathlib

/-!
A shallow embedding of the batched file tools of the reviewed repository
(read / write / delete / create-directories / list-directories), together
with proofs about the batch-operation-with-partial-failure pattern they
share.

External collaborators (the editor filesystem, the ignore-policy
controller, path resolution, the approval gate, text extraction) are
modelled as oracle functions supplied through an environment record; the
control flow of each tool function is translated statement by statement
from the source files. The `consecutiveMistakeCount` counter and the
console-warning side channel are the only source effects not carried in
the traces; no claim concerns them.
-/

set_option maxHeartbeats 1600000

namespace RooBatch

/-- A JS runtime error value as the tools observe it: an optional `code`
property and an optional `message` property. -/
structure FsError where
  code : Option String
  message : Option String
deriving DecidableEq, Repr

/-- `error.message || "Unknown error"`: JS `||` falls back when the
message is missing or the empty string. -/
def errMessage (e : FsError) : String :=
  match e.message with
  | some m => if m = "" then "Unknown error" else m
  | none => "Unknown error"

/-- `error.message || "Unknown error reading file"` (read-tool catch). -/
def errMessageRead (e : FsError) : String :=
  match e.message with
  | some m => if m = "" then "Unknown error reading file" else m
  | none => "Unknown error reading file"

/-- `error.message || "Unknown error listing directory"` (list-tool catch). -/
def errMessageList (e : FsError) : String :=
  match e.message with
  | some m => if m = "" then "Unknown error listing directory" else m
  | none => "Unknown error listing directory"

/-- Modelled from JS `String.prototype.trim` (a runtime primitive):
strips leading and trailing ASCII whitespace. (The full Unicode
whitespace set of JS is not modelled; no reviewed behavior depends on
it.) Defined over the character list so that it reduces inside the
kernel. -/
def jsIsWhitespace (c : Char) : Bool :=
  c = ' ' ∨ c = '\t' ∨ c = '\n' ∨ c = '\r' ∨ c = '\x0b' ∨ c = '\x0c'

/-- JS `s.trim()`. -/
def jsTrim (s : String) : String :=
  String.mk (((s.data.dropWhile jsIsWhitespace).reverse.dropWhile jsIsWhitespace).reverse)

/-- An entry of a `paths` parameter array; `none` models an entry that is
not a string. -/
abbrev RawEntry := Option String

/-- `input.filter((p) => typeof p === "string" && p.trim() !== "")`. -/
def filterValidPaths (input : List RawEntry) : List String :=
  input.filterMap (fun e =>
    match e with
    | some s => if jsTrim s ≠ "" then some s else none
    | none => none)

/-- `cline.rooIgnoreController?.validateAccess(relPath) ?? true`: a missing
controller answers `true` (fail-open). -/
def validateAccess (ctrl : Option (String → Bool)) (relPath : String) : Bool :=
  match ctrl with
  | some f => f relPath
  | none => true

/-- Modelled from the spec: `formatResponse.toolError` lives in
`core/prompts/responses.ts`, which is not among the reviewed source files.
Spec §7 only requires that the descriptive error text is reported, so the
wrapper keeps its argument verbatim. -/
def toolError (msg : String) : String :=
  "ERROR: " ++ msg

/-- Modelled from the spec: `formatResponse.rooIgnoreError` (same missing
file). Spec §7: policy denial is "reported as a single aggregated message
naming all disallowed paths"; the wrapper keeps its argument verbatim. -/
def rooIgnoreError (msg : String) : String :=
  "Access blocked by the .rooignore file settings: " ++ msg

/-- Modelled from the spec: `cline.sayAndCreateMissingParamError` (the
`Cline` class is not among the reviewed source files). Spec §4.4 step 1:
a "missing parameter" error naming the expected parameter and an example
shape; the tools pass the example-shape hint at the call site. -/
def missingParamError (toolName paramName hint : String) : String :=
  "Missing required parameter " ++ paramName ++ " for tool " ++ toolName ++ ": " ++ hint

/-- Substring test, as JS `String.includes`. -/
def strContains (s pat : String) : Bool :=
  (List.range (s.data.length + 1)).any (fun k => pat.data.isPrefixOf (s.data.drop k))

/-- The path collaborators: `path.resolve(cwd, ·)`, `getReadablePath(cwd, ·)`
and `isPathOutsideWorkspace` are external to the tool files and are
modelled as oracles. -/
structure PathEnv where
  cwd : String
  resolve : String → String
  readable : String → String
  outside : String → Bool

/-- One entry of the `paths` field of an approval payload. -/
structure ApprovalPath where
  path : String
  isOutsideWorkspace : Bool
deriving DecidableEq, Repr

/-- A finalized approval payload of the path tools: tool name, path
entries, human-readable reason. -/
structure ApprovalReq where
  tool : String
  paths : List ApprovalPath
  reason : String
deriving DecidableEq, Repr

/-- Entry of `pathsForApproval` as the read and list tools build it (the
readable path doubles as the `path` field). -/
structure ReadPathInfo where
  path : String
  isOutsideWorkspace : Bool
  accessAllowed : Bool
deriving Repr

/-- A per-item outcome record (delete / write / create results). -/
structure ItemResult where
  path : String
  status : String
  error : Option String
deriving DecidableEq, Repr

/-- JS truthiness of `result.error` as the serializers test it
(`if (result.error)`): present and non-empty. -/
def hasError (r : ItemResult) : Bool :=
  match r.error with
  | some s => s ≠ ""
  | none => false

/-- The `pathsForApproval` list as the read and list tools build it from
the filtered paths. -/
def pathInfos (penv : PathEnv) (ctrl : Option (String → Bool)) (relPaths : List String) :
    List ReadPathInfo :=
  relPaths.map (fun p =>
    ⟨penv.readable p, penv.outside (penv.resolve p), validateAccess ctrl p⟩)

/-- The disallowed (readable) paths among a `pathsForApproval` list. -/
def disallowedOf (infos : List ReadPathInfo) : List String :=
  (infos.filter (fun p => !p.accessAllowed)).map (fun p => p.path)

/-! ## deleteItemsTool -/

/-- The parameters the delete tool reads from the tool-use block:
`block.params.paths` and the streaming flag `block.partial`. -/
structure DeleteParams where
  paths : Option (List RawEntry)
  streaming : Bool

/-- Environment of one delete invocation. `rooIgnoreExec` records what the
ignore policy would answer at execution time (after approval); the
source's execution loop never consults it — only the pre-approval check
uses `rooIgnore`. -/
structure DeleteEnv where
  penv : PathEnv
  rooIgnore : Option (String → Bool)
  rooIgnoreExec : Option (String → Bool)
  approve : Bool
  fsDelete : Nat → Except FsError Unit

/-- One call to `vscode.workspace.fs.delete(uri, {recursive, useTrash})`. -/
structure DeleteCall where
  uri : String
  recursive : Bool
  useTrash : Bool
deriving DecidableEq, Repr

/-- Observable effects of one iteration of the delete loop. -/
structure DeleteStepOut where
  call : DeleteCall
  result : ItemResult
  handleErr : Option String
  edited : Bool
deriving Repr

/-- Body of the delete execution loop (source lines 107–128): resolve the
path, delete with `recursive: true, useTrash: false`, record success, or
map a `FileNotFound` failure to the fixed message without calling
`handleError`, and any other failure to its raw message with a
`handleError` call. -/
def deleteItemStep (env : DeleteEnv) (i : Nat) (relPath : String) : DeleteStepOut :=
  let absolutePath := env.penv.resolve relPath
  match env.fsDelete i with
  | .ok _ =>
    ⟨⟨absolutePath, true, false⟩, ⟨relPath, "success", none⟩, none, true⟩
  | .error e =>
    if e.code = some "FileNotFound" then
      ⟨⟨absolutePath, true, false⟩, ⟨relPath, "error", some "File or directory not found."⟩,
        none, false⟩
    else
      ⟨⟨absolutePath, true, false⟩, ⟨relPath, "error", some (errMessage e)⟩,
        some ("deleting " ++ relPath), false⟩

/-- Accumulated effects of the delete loop. `handleErrorCalls` pairs each
`handleError` invocation with the loop position it came from. -/
structure DeleteExecOut where
  calls : List DeleteCall
  results : List ItemResult
  handleErrorCalls : List (Nat × String)
  edited : Bool
deriving Repr

/-- The sequential delete loop, one `deleteItemStep` per path, carrying
the loop index. -/
def deleteExec (env : DeleteEnv) : Nat → List String → DeleteExecOut
  | _, [] => ⟨[], [], [], false⟩
  | i, p :: rest =>
    let s := deleteItemStep env i p
    let r := deleteExec env (i + 1) rest
    ⟨s.call :: r.calls,
     s.result :: r.results,
     (match s.handleErr with
      | some a => (i, a) :: r.handleErrorCalls
      | none => r.handleErrorCalls),
     (s.edited || r.edited)⟩

/-- One `<item>` element of the deletion report (source lines 134–143);
the `<error>` line is emitted only when `result.error` is truthy. -/
def deleteItemXml (r : ItemResult) : String :=
  "  <item>\n    <path>" ++ r.path ++ "</path>\n    <status>" ++ r.status ++ "</status>\n"
    ++ (match r.error with
        | some e => if e ≠ "" then "    <error>" ++ e ++ "</error>\n" else ""
        | none => "")
    ++ "  </item>\n"

/-- The `<deletion_results>` report. -/
def deleteXml (results : List ItemResult) : String :=
  "<deletion_results>\n" ++ String.join (results.map deleteItemXml) ++ "</deletion_results>"

/-- The one-line summary of a delete batch; counts recomputed from the
per-item results exactly as the serializer loop does. -/
def deleteSummary (results : List ItemResult) : String :=
  let successCount := (results.filter (fun r => !hasError r)).length
  let errorCount := (results.filter (fun r => hasError r)).length
  "Batch deletion completed. " ++ toString successCount ++ " item(s) deleted successfully."
    ++ (if errorCount > 0 then
          " " ++ toString errorCount ++ " item(s) failed to delete or were not found."
        else "")

/-- Entry of `pathsForApproval` as the delete tool builds it. -/
structure PathInfo where
  path : String
  readablePath : String
  isOutsideWorkspace : Bool
  accessAllowed : Bool
deriving Repr

/-- Source lines 59–71: per-path pre-approval record of the delete tool. -/
def deletePathInfo (env : DeleteEnv) (relPath : String) : PathInfo :=
  ⟨relPath, env.penv.readable relPath,
   env.penv.outside (env.penv.resolve relPath),
   validateAccess env.rooIgnore relPath⟩

/-- The `pathsForApproval` list of the delete tool. -/
def deletePathsForApproval (env : DeleteEnv) (relPaths : List String) : List PathInfo :=
  relPaths.map (deletePathInfo env)

/-- The disallowed readable paths of a delete batch (source lines 68–70). -/
def deleteDisallowedPaths (env : DeleteEnv) (relPaths : List String) : List String :=
  ((deletePathsForApproval env relPaths).filter (fun p => !p.accessAllowed)).map
    (fun p => p.readablePath)

/-- Everything one delete invocation observably does. -/
structure DeleteTrace where
  sayEvents : List (String × String)
  announced : Bool
  approvalAsked : Option ApprovalReq
  calls : List DeleteCall
  results : List ItemResult
  handleErrorCalls : List (Nat × String)
  pushed : List String
  edited : Bool
deriving Repr

/-- The all-empty delete trace. -/
def DeleteTrace.empty : DeleteTrace := ⟨[], false, none, [], [], [], [], false⟩

/-- The batch delete tool (`deleteItemsTool`, source lines 18–153):
parameter validation, silent filtering of empty entries, whole-batch
ignore-policy pre-check, one approval for the whole batch, then the
sequential per-item loop and the aggregated report. -/
def deleteItemsTool (env : DeleteEnv) (params : DeleteParams) : DeleteTrace :=
  match params.paths with
  | none =>
    { DeleteTrace.empty with
      pushed := [missingParamError "delete_items" "paths"
        "Expected a non-empty array of file or directory paths to delete."] }
  | some input =>
    if input.length = 0 then
      { DeleteTrace.empty with
        pushed := [missingParamError "delete_items" "paths"
          "Expected a non-empty array of file or directory paths to delete."] }
    else
      let relPaths := filterValidPaths input
      if relPaths.length = 0 then
        { DeleteTrace.empty with
          sayEvents := [("error", "The 'paths' parameter array contains only invalid or empty paths.")],
          pushed := [toolError "Invalid 'paths' parameter: No valid paths provided."] }
      else
        let pathsForApproval := deletePathsForApproval env relPaths
        let disallowedPaths := deleteDisallowedPaths env relPaths
        if disallowedPaths.length > 0 then
          let errorMsg := rooIgnoreError
            ("Deletion prevented for ignored path(s): " ++ String.intercalate ", " disallowedPaths)
          { DeleteTrace.empty with
            sayEvents := [("rooignore_error", errorMsg)],
            pushed := [toolError errorMsg] }
        else
          let reason := "Will attempt to PERMANENTLY delete " ++ toString relPaths.length
            ++ " item(s) (files or directories). This action cannot be undone."
          let req : ApprovalReq :=
            ⟨"deleteItems",
             pathsForApproval.map (fun p => ⟨p.readablePath, p.isOutsideWorkspace⟩), reason⟩
          if params.streaming then
            { DeleteTrace.empty with announced := true }
          else if env.approve then
            let ex := deleteExec env 0 relPaths
            { sayEvents := [("text", deleteSummary ex.results)],
              announced := false,
              approvalAsked := some req,
              calls := ex.calls,
              results := ex.results,
              handleErrorCalls := ex.handleErrorCalls,
              pushed := [deleteXml ex.results],
              edited := ex.edited }
          else
            { DeleteTrace.empty with approvalAsked := some req }

/-! ## writeFilesTool -/

/-- An entry of the `items` parameter array of the write tool. `notObject`
models an entry that is not an object (property access on it yields
`undefined`); in an `item` entry, `none` models a missing or non-string
`path` / `content` property. -/
inductive RawWriteItem where
  | notObject
  | item (path : Option String) (content : Option String)
deriving DecidableEq, Repr

/-- A validated `{path, content}` pair (path already trimmed, as the
validation loop stores it). -/
structure WriteItem where
  path : String
  content : String
deriving DecidableEq, Repr

/-- The write tool parameters: `block.params.items` and `block.partial`. -/
structure WriteParams where
  items : Option (List RawWriteItem)
  streaming : Bool

/-- Environment of one write invocation. `dirname` models `path.dirname`;
`fileExists` models `fileExistsAtPath` (used only to annotate the approval
payload); `mkdir` and `writeFile` give the outcome of the filesystem calls
of the i-th loop iteration. `rooIgnoreExec` records what the policy would
answer at execution time; the source's write loop never consults it. -/
structure WriteEnv where
  penv : PathEnv
  dirname : String → String
  rooIgnore : Option (String → Bool)
  rooIgnoreExec : Option (String → Bool)
  approve : Bool
  fileExists : String → Bool
  mkdir : Nat → Except FsError Unit
  writeFile : Nat → Except FsError Unit

/-- One call to `vscode.workspace.fs.writeFile(uri, encoder.encode(payload))`. -/
structure WriteCall where
  uri : String
  payload : String
deriving DecidableEq, Repr

/-- The write tool validation loop (source lines 43–65), index-carrying;
returns the accumulated `validationErrors` and `validItems`. A valid item
is stored only while no error has been recorded yet, and an entry whose
path and content are both invalid stops the loop (`break`). -/
def writeValidateLoop : List RawWriteItem → Nat → List String → List WriteItem →
    List String × List WriteItem
  | [], _, errs, valids => (errs, valids)
  | .notObject :: rest, i, errs, valids =>
    writeValidateLoop rest (i + 1)
      (errs ++ ["Item at index " ++ toString i ++ " is not a valid object."]) valids
  | .item p c :: rest, i, errs, valids =>
    let pathInvalid : Bool := match p with
      | some ps => jsTrim ps = ""
      | none => true
    let errs1 := if pathInvalid then
        errs ++ ["Item at index " ++ toString i ++ " is missing a valid 'path'."]
      else errs
    let errs2 := if c.isNone then
        errs1 ++ ["Item at index " ++ toString i ++ " is missing 'content'."]
      else errs1
    match p, c with
    | some ps, some cs =>
      if errs2.length = 0 ∧ jsTrim ps ≠ "" then
        writeValidateLoop rest (i + 1) errs2 (valids ++ [⟨jsTrim ps, cs⟩])
      else if pathInvalid && c.isNone then (errs2, valids)
      else writeValidateLoop rest (i + 1) errs2 valids
    | _, _ =>
      if pathInvalid && c.isNone then (errs2, valids)
      else writeValidateLoop rest (i + 1) errs2 valids

/-- `itemsInput.findIndex((inputItem) => inputItem.path === item.path)`:
JS `findIndex` answers `-1` when nothing matches; a non-object entry's
`path` property is `undefined` and never strictly equal to a string. -/
def jsFindIndexPath (itemsInput : List RawWriteItem) (p : String) : Int :=
  match itemsInput.findIdx? (fun ri =>
      match ri with
      | .item (some q) _ => q = p
      | _ => false) with
  | some i => (i : Int)
  | none => -1

/-- Source lines 77–85: `validItems` filtered against the recorded
path-validation errors via the `findIndex` round trip. -/
def writeItemsToProcess (itemsInput : List RawWriteItem) (errs : List String)
    (valids : List WriteItem) : List WriteItem :=
  valids.filter (fun item =>
    !(errs.any (fun err =>
      strContains err ("Item at index " ++ toString (jsFindIndexPath itemsInput item.path)) &&
      strContains err "missing a valid 'path'")))

/-- The `pathsForApproval` list of the write tool (source lines 95–115);
the items to process are already path-trimmed. -/
def writePathsForApproval (env : WriteEnv) (itemsToProcess : List WriteItem) : List PathInfo :=
  itemsToProcess.map (fun item =>
    ⟨item.path, env.penv.readable item.path,
     env.penv.outside (env.penv.resolve item.path),
     validateAccess env.rooIgnore item.path⟩)

/-- The disallowed paths of a write batch: the write tool records the raw
relative path, not the readable one (source line 113). -/
def writeDisallowedPaths (env : WriteEnv) (itemsToProcess : List WriteItem) : List String :=
  ((writePathsForApproval env itemsToProcess).filter (fun p => !p.accessAllowed)).map
    (fun p => p.path)

/-- Observable effects of one iteration of the write loop. -/
structure WriteStepOut where
  mkdirCalls : List String
  writeCalls : List WriteCall
  result : ItemResult
  handleErr : Option String
  edited : Bool
deriving Repr

/-- Body of the write execution loop (source lines 165–182): conditionally
create the parent directory, write the UTF-8 encoded content, record the
outcome; any failure is caught, forwarded to `handleError` and recorded in
the item result. -/
def writeItemStep (env : WriteEnv) (i : Nat) (item : WriteItem) : WriteStepOut :=
  let absolutePath := env.penv.resolve item.path
  let dir := env.dirname absolutePath
  if dir ≠ absolutePath ∧ dir ≠ env.penv.cwd ∧ dir ≠ "." then
    match env.mkdir i with
    | .error e =>
      ⟨[dir], [], ⟨item.path, "error", some (errMessage e)⟩,
        some ("writing file " ++ item.path), false⟩
    | .ok _ =>
      match env.writeFile i with
      | .ok _ =>
        ⟨[dir], [⟨absolutePath, item.content⟩], ⟨item.path, "success", none⟩, none, true⟩
      | .error e =>
        ⟨[dir], [⟨absolutePath, item.content⟩], ⟨item.path, "error", some (errMessage e)⟩,
          some ("writing file " ++ item.path), false⟩
  else
    match env.writeFile i with
    | .ok _ =>
      ⟨[], [⟨absolutePath, item.content⟩], ⟨item.path, "success", none⟩, none, true⟩
    | .error e =>
      ⟨[], [⟨absolutePath, item.content⟩], ⟨item.path, "error", some (errMessage e)⟩,
        some ("writing file " ++ item.path), false⟩

/-- Accumulated effects of the write loop. -/
structure WriteExecOut where
  mkdirCalls : List String
  writeCalls : List WriteCall
  results : List ItemResult
  handleErrorCalls : List (Nat × String)
  edited : Bool
deriving Repr

/-- The sequential write loop, one `writeItemStep` per validated item. -/
def writeExec (env : WriteEnv) : Nat → List WriteItem → WriteExecOut
  | _, [] => ⟨[], [], [], [], false⟩
  | i, item :: rest =>
    let s := writeItemStep env i item
    let r := writeExec env (i + 1) rest
    ⟨s.mkdirCalls ++ r.mkdirCalls,
     s.writeCalls ++ r.writeCalls,
     s.result :: r.results,
     (match s.handleErr with
      | some a => (i, a) :: r.handleErrorCalls
      | none => r.handleErrorCalls),
     (s.edited || r.edited)⟩

/-- One `<file>` element of the write report (source lines 188–197). -/
def writeItemXml (r : ItemResult) : String :=
  "  <file>\n    <path>" ++ r.path ++ "</path>\n    <status>" ++ r.status ++ "</status>\n"
    ++ (match r.error with
        | some e => if e ≠ "" then "    <error>" ++ e ++ "</error>\n" else ""
        | none => "")
    ++ "  </file>\n"

/-- The `<write_results>` report. -/
def writeXml (results : List ItemResult) : String :=
  "<write_results>\n" ++ String.join (results.map writeItemXml) ++ "</write_results>"

/-- The one-line summary of a write batch. -/
def writeSummary (results : List ItemResult) : String :=
  let successCount := (results.filter (fun r => !hasError r)).length
  let errorCount := (results.filter (fun r => hasError r)).length
  "Batch write operation completed. " ++ toString successCount
    ++ " file(s) written successfully."
    ++ (if errorCount > 0 then
          " " ++ toString errorCount ++ " file(s) failed to write."
        else "")

/-- Per-entry approval annotation for the write tool: readable path,
outside-workspace flag, and create-vs-overwrite status. -/
structure WriteApprovalPath where
  path : String
  isOutsideWorkspace : Bool
  status : String
deriving DecidableEq, Repr

/-- The finalized approval payload of the write tool. -/
structure WriteApprovalReq where
  tool : String
  paths : List WriteApprovalPath
  reason : String
deriving DecidableEq, Repr

/-- `fileStatuses.find((s) => s.path === p.path)?.exists ? "overwrite" : "create"`:
the per-entry status string of the approval payload. -/
def writeEntryStatus (env : WriteEnv) (itemsToProcess : List WriteItem) (p : String) : String :=
  match itemsToProcess.find? (fun item => item.path = p) with
  | some item => if env.fileExists (env.penv.resolve item.path) then "overwrite" else "create"
  | none => "create"

/-- The approval reason of the write tool (source lines 131–137). -/
def writeReason (env : WriteEnv) (itemsToProcess : List WriteItem) : String :=
  let newCount := (itemsToProcess.filter
    (fun item => !env.fileExists (env.penv.resolve item.path))).length
  let existingCount := (itemsToProcess.filter
    (fun item => env.fileExists (env.penv.resolve item.path))).length
  "Will create " ++ toString newCount ++ " new file(s)"
    ++ (if existingCount > 0 then
          " and overwrite " ++ toString existingCount ++ " existing file(s)"
        else "")
    ++ "."

/-- Everything one write invocation observably does. -/
structure WriteTrace where
  sayEvents : List (String × String)
  announced : Bool
  approvalAsked : Option WriteApprovalReq
  mkdirCalls : List String
  writeCalls : List WriteCall
  results : List ItemResult
  handleErrorCalls : List (Nat × String)
  pushed : List String
  edited : Bool
deriving Repr

/-- The all-empty write trace. -/
def WriteTrace.empty : WriteTrace := ⟨[], false, none, [], [], [], [], [], false⟩

/-- The batch write tool (`writeFilesTool`, source lines 19–208):
structural validation of each `{path, content}` item, whole-batch
ignore-policy pre-check over the surviving items, one approval annotated
with create/overwrite statuses, then the sequential write loop and the
aggregated report. -/
def writeFilesTool (env : WriteEnv) (params : WriteParams) : WriteTrace :=
  match params.items with
  | none =>
    { WriteTrace.empty with
      pushed := [missingParamError "write_files" "items"
        "Expected a non-empty array of {path, content} objects."] }
  | some itemsInput =>
    if itemsInput.length = 0 then
      { WriteTrace.empty with
        pushed := [missingParamError "write_files" "items"
          "Expected a non-empty array of {path, content} objects."] }
    else
      let v := writeValidateLoop itemsInput 0 [] []
      let validationErrors := v.1
      let validItems := v.2
      if validationErrors.length > 0 ∧ validationErrors.any (fun err =>
          strContains err "missing a valid 'path'" && strContains err "missing 'content'") then
        let errorMsg := "Invalid 'items' parameter: " ++ String.intercalate "; " validationErrors
        { WriteTrace.empty with
          sayEvents := [("error", errorMsg)],
          pushed := [toolError errorMsg] }
      else
        let itemsToProcess := writeItemsToProcess itemsInput validationErrors validItems
        if itemsToProcess.length = 0 ∧ itemsInput.length > 0 then
          let errorMsg := "Invalid 'items' parameter: No valid items found. Errors: "
            ++ String.intercalate "; " validationErrors
          { WriteTrace.empty with
            sayEvents := [("error", errorMsg)],
            pushed := [toolError errorMsg] }
        else
          let pathsForApproval := writePathsForApproval env itemsToProcess
          let disallowedPaths := writeDisallowedPaths env itemsToProcess
          if disallowedPaths.length > 0 then
            let errorMsg := rooIgnoreError (String.intercalate ", " disallowedPaths)
            { WriteTrace.empty with
              sayEvents := [("rooignore_error", errorMsg)],
              pushed := [toolError errorMsg] }
          else
            let req : WriteApprovalReq :=
              ⟨"writeFiles",
               pathsForApproval.map (fun p =>
                 ⟨p.readablePath, p.isOutsideWorkspace,
                  writeEntryStatus env itemsToProcess p.path⟩),
               writeReason env itemsToProcess⟩
            if params.streaming then
              { WriteTrace.empty with announced := true }
            else if env.approve then
              let ex := writeExec env 0 itemsToProcess
              { sayEvents := [("text", writeSummary ex.results)],
                announced := false,
                approvalAsked := some req,
                mkdirCalls := ex.mkdirCalls,
                writeCalls := ex.writeCalls,
                results := ex.results,
                handleErrorCalls := ex.handleErrorCalls,
                pushed := [writeXml ex.results],
                edited := ex.edited }
            else
              { WriteTrace.empty with approvalAsked := some req }

/-! ## createDirectoriesTool -/

/-- The create tool parameters: `block.params.paths` and `block.partial`. -/
structure CreateParams where
  paths : Option (List RawEntry)
  streaming : Bool

/-- Environment of one create invocation. The source never consults the
ignore controller (its pre-approval check is commented out, source lines
50–59, and the loop has no execution-time check either); `rooIgnore` and
`rooIgnoreExec` record what the policy would have answered. -/
structure CreateEnv where
  penv : PathEnv
  rooIgnore : Option (String → Bool)
  rooIgnoreExec : Option (String → Bool)
  approve : Bool
  mkdir : Nat → Except FsError Unit

/-- Observable effects of one iteration of the create loop. -/
structure CreateStepOut where
  call : String
  result : ItemResult
  handleErr : Option String
  edited : Bool
deriving Repr

/-- Body of the create execution loop (source lines 84–97): create the
directory (parents included), record success; any failure is forwarded to
`handleError` and recorded with its raw message. -/
def createItemStep (env : CreateEnv) (i : Nat) (relDirPath : String) : CreateStepOut :=
  let absolutePath := env.penv.resolve relDirPath
  match env.mkdir i with
  | .ok _ => ⟨absolutePath, ⟨relDirPath, "success", none⟩, none, true⟩
  | .error e =>
    ⟨absolutePath, ⟨relDirPath, "error", some (errMessage e)⟩,
      some ("creating directory " ++ relDirPath), false⟩

/-- Accumulated effects of the create loop. -/
structure CreateExecOut where
  calls : List String
  results : List ItemResult
  handleErrorCalls : List (Nat × String)
  edited : Bool
deriving Repr

/-- The sequential create loop. -/
def createExec (env : CreateEnv) : Nat → List String → CreateExecOut
  | _, [] => ⟨[], [], [], false⟩
  | i, p :: rest =>
    let s := createItemStep env i p
    let r := createExec env (i + 1) rest
    ⟨s.call :: r.calls,
     s.result :: r.results,
     (match s.handleErr with
      | some a => (i, a) :: r.handleErrorCalls
      | none => r.handleErrorCalls),
     (s.edited || r.edited)⟩

/-- One `<directory>` element of the creation report (source lines 103–112). -/
def createItemXml (r : ItemResult) : String :=
  "  <directory>\n    <path>" ++ r.path ++ "</path>\n    <status>" ++ r.status ++ "</status>\n"
    ++ (match r.error with
        | some e => if e ≠ "" then "    <error>" ++ e ++ "</error>\n" else ""
        | none => "")
    ++ "  </directory>\n"

/-- The `<creation_results>` report. -/
def createXml (results : List ItemResult) : String :=
  "<creation_results>\n" ++ String.join (results.map createItemXml) ++ "</creation_results>"

/-- The one-line summary of a create batch. -/
def createSummary (results : List ItemResult) : String :=
  let successCount := (results.filter (fun r => !hasError r)).length
  let errorCount := (results.filter (fun r => hasError r)).length
  "Batch directory creation completed. " ++ toString successCount
    ++ " director(y/ies) processed successfully."
    ++ (if errorCount > 0 then
          " " ++ toString errorCount ++ " director(y/ies) failed to create."
        else "")

/-- Everything one create invocation observably does. -/
structure CreateTrace where
  sayEvents : List (String × String)
  announced : Bool
  approvalAsked : Option ApprovalReq
  calls : List String
  results : List ItemResult
  handleErrorCalls : List (Nat × String)
  pushed : List String
  edited : Bool
deriving Repr

/-- The all-empty create trace. -/
def CreateTrace.empty : CreateTrace := ⟨[], false, none, [], [], [], [], false⟩

/-- The batch create tool (`createDirectoriesTool`, source lines 18–122):
parameter validation and filtering, NO ignore-policy pre-check (the one
tool of the pattern that omits it), one approval, then the sequential
creation loop and the aggregated report. -/
def createDirectoriesTool (env : CreateEnv) (params : CreateParams) : CreateTrace :=
  match params.paths with
  | none =>
    { CreateTrace.empty with
      pushed := [missingParamError "create_directories" "paths"
        "Expected a non-empty array of directory paths."] }
  | some input =>
    if input.length = 0 then
      { CreateTrace.empty with
        pushed := [missingParamError "create_directories" "paths"
          "Expected a non-empty array of directory paths."] }
    else
      let relDirPaths := filterValidPaths input
      if relDirPaths.length = 0 then
        { CreateTrace.empty with
          sayEvents := [("error", "The 'paths' parameter array contains only invalid or empty paths.")],
          pushed := [toolError "Invalid 'paths' parameter: No valid paths provided."] }
      else
        let reason := "Will attempt to create " ++ toString relDirPaths.length
          ++ " director(y/ies) and any necessary parent directories."
        let req : ApprovalReq :=
          ⟨"createDirectories",
           relDirPaths.map (fun p =>
             ⟨env.penv.readable p, env.penv.outside (env.penv.resolve p)⟩), reason⟩
        if params.streaming then
          { CreateTrace.empty with announced := true }
        else if env.approve then
          let ex := createExec env 0 relDirPaths
          { sayEvents := [("text", createSummary ex.results)],
            announced := false,
            approvalAsked := some req,
            calls := ex.calls,
            results := ex.results,
            handleErrorCalls := ex.handleErrorCalls,
            pushed := [createXml ex.results],
            edited := ex.edited }
        else
          { CreateTrace.empty with approvalAsked := some req }

/-! ## listDirectoriesTool -/

/-- The list tool parameters: `block.params.paths`, the raw
`block.params.recursive` string and `block.partial`. -/
structure ListParams where
  paths : Option (List RawEntry)
  recursive : Option String
  streaming : Bool

/-- Environment of one list invocation. `listFiles` gives the outcome of
the glob call of the i-th loop iteration; `formatFilesList` models the
external formatter (absolute path, files, limit flag, show-ignored flag).
Unlike the delete tool, the list loop re-validates access at execution
time, so it consults `rooIgnoreExec`. -/
structure ListEnv where
  penv : PathEnv
  rooIgnore : Option (String → Bool)
  rooIgnoreExec : Option (String → Bool)
  approve : Bool
  showRooIgnoredFilesState : Option Bool
  listFiles : Nat → Except FsError (List String × Bool)
  formatFilesList : String → List String → Bool → Bool → String

/-- Per-item outcome of the list tool. -/
structure ListResult where
  path : String
  content : Option String
  error : Option String
  didHitLimit : Bool
deriving DecidableEq, Repr

/-- One `listFiles(absolutePath, recursive, 200)` call. -/
structure ListCall where
  uri : String
  recursive : Bool
  limit : Nat
deriving DecidableEq, Repr

/-- Observable effects of one iteration of the list loop. -/
structure ListStepOut where
  calls : List ListCall
  result : ListResult
  handleErr : Option String
deriving Repr

/-- Body of the list execution loop (source lines 94–120): re-validate
access (throwing a rooignore error before any glob call on denial), list
the directory, format; every caught failure is forwarded to `handleError`
and recorded with its raw message. -/
def listItemStep (env : ListEnv) (recursive : Bool) (showRooIgnoredFiles : Bool)
    (i : Nat) (relDirPath : String) : ListStepOut :=
  let absolutePath := env.penv.resolve relDirPath
  if !(validateAccess env.rooIgnoreExec relDirPath) then
    ⟨[], ⟨relDirPath, none, some (rooIgnoreError relDirPath), false⟩,
      some ("listing directory " ++ relDirPath)⟩
  else
    match env.listFiles i with
    | .ok fl =>
      ⟨[⟨absolutePath, recursive, 200⟩],
       ⟨relDirPath, some (env.formatFilesList absolutePath fl.1 fl.2 showRooIgnoredFiles),
        none, fl.2⟩, none⟩
    | .error e =>
      ⟨[⟨absolutePath, recursive, 200⟩],
       ⟨relDirPath, none, some (errMessageList e), false⟩,
       some ("listing directory " ++ relDirPath)⟩

/-- Accumulated effects of the list loop. -/
structure ListExecOut where
  calls : List ListCall
  results : List ListResult
  handleErrorCalls : List (Nat × String)
deriving Repr

/-- The sequential list loop. -/
def listExec (env : ListEnv) (recursive showRooIgnoredFiles : Bool) :
    Nat → List String → ListExecOut
  | _, [] => ⟨[], [], []⟩
  | i, p :: rest =>
    let s := listItemStep env recursive showRooIgnoredFiles i p
    let r := listExec env recursive showRooIgnoredFiles (i + 1) rest
    ⟨s.calls ++ r.calls,
     s.result :: r.results,
     (match s.handleErr with
      | some a => (i, a) :: r.handleErrorCalls
      | none => r.handleErrorCalls)⟩

/-- One `<directory>` element of the listing report (source lines 124–135). -/
def listItemXml (r : ListResult) : String :=
  "  <directory>\n    <path>" ++ r.path ++ "</path>\n"
    ++ (match r.content with
        | some c =>
          "    <content>\n" ++ c ++ "\n    </content>\n"
            ++ (if r.didHitLimit then "    <limit_hit>true</limit_hit>\n" else "")
        | none =>
          match r.error with
          | some e => "    <error>" ++ e ++ "</error>\n"
          | none => "")
    ++ "  </directory>\n"

/-- The `<directories>` report. -/
def listXml (results : List ListResult) : String :=
  "<directories>\n" ++ String.join (results.map listItemXml) ++ "</directories>"

/-- The finalized approval payload of the list tool (it carries the
recursive flag instead of a reason string). -/
structure ListApprovalReq where
  tool : String
  paths : List ApprovalPath
  recursive : Bool
deriving DecidableEq, Repr

/-- Everything one list invocation observably does. -/
structure ListTrace where
  sayEvents : List (String × String)
  announced : Bool
  approvalAsked : Option ListApprovalReq
  calls : List ListCall
  results : List ListResult
  handleErrorCalls : List (Nat × String)
  pushed : List String
deriving Repr

/-- The all-empty list trace. -/
def ListTrace.empty : ListTrace := ⟨[], false, none, [], [], [], []⟩

/-- The batch list tool (`listDirectoriesTool`, source lines 20–140):
parameter validation and filtering, whole-batch ignore-policy pre-check,
one approval carrying the recursive flag, then the sequential listing loop
(with per-item re-validation) and the aggregated report. -/
def listDirectoriesTool (env : ListEnv) (params : ListParams) : ListTrace :=
  let recursive := (params.recursive.map String.toLower) = some "true"
  match params.paths with
  | none =>
    { ListTrace.empty with
      pushed := [missingParamError "list_directories" "paths"
        "Expected a non-empty array of directory paths."] }
  | some input =>
    if input.length = 0 then
      { ListTrace.empty with
        pushed := [missingParamError "list_directories" "paths"
          "Expected a non-empty array of directory paths."] }
    else
      let relDirPaths := filterValidPaths input
      if relDirPaths.length = 0 then
        { ListTrace.empty with
          sayEvents := [("error", "The 'paths' parameter array contains only invalid or empty paths.")],
          pushed := [toolError "Invalid 'paths' parameter: No valid paths provided."] }
      else
        let pathsForApproval := pathInfos env.penv env.rooIgnore relDirPaths
        let disallowedPaths := disallowedOf pathsForApproval
        if disallowedPaths.length > 0 then
          let errorMsg := rooIgnoreError (String.intercalate ", " disallowedPaths)
          { ListTrace.empty with
            sayEvents := [("rooignore_error", errorMsg)],
            pushed := [toolError errorMsg] }
        else
          let req : ListApprovalReq :=
            ⟨"listDirectories",
             pathsForApproval.map (fun p => ⟨p.path, p.isOutsideWorkspace⟩), recursive⟩
          if params.streaming then
            { ListTrace.empty with announced := true }
          else if env.approve then
            let showRooIgnoredFiles := env.showRooIgnoredFilesState.getD true
            let ex := listExec env recursive showRooIgnoredFiles 0 relDirPaths
            { sayEvents := [],
              announced := false,
              approvalAsked := some req,
              calls := ex.calls,
              results := ex.results,
              handleErrorCalls := ex.handleErrorCalls,
              pushed := [listXml ex.results] }
          else
            { ListTrace.empty with approvalAsked := some req }

/-! ## readFilesTool -/

/-- JS truthiness of an optional string parameter (`if (startLineStr)`):
present and non-empty. -/
def jsTruthy : Option String → Bool
  | some s => s ≠ ""
  | none => false

/-- Modelled from JS `parseInt` (a runtime primitive, not repository
code): skip leading whitespace, read an optional sign and then the longest
leading digit run; `none` models `NaN`. Radix prefixes are not modelled
(no reviewed call site uses them). -/
def jsParseInt (s : String) : Option Int :=
  let cs := s.data.dropWhile (fun c => c = ' ' ∨ c = '\t' ∨ c = '\n' ∨ c = '\r')
  let signed : Int × List Char :=
    match cs with
    | '-' :: r => (-1, r)
    | '+' :: r => (1, r)
    | r => (1, r)
  let digits := signed.2.takeWhile Char.isDigit
  if digits.isEmpty then none
  else some (signed.1 * ((digits.foldl (fun acc c => acc * 10 + (c.toNat - '0'.toNat)) 0 : Nat) : Int))

/-- The read tool parameters: `block.params.paths`, the raw
`block.params.start_line` / `block.params.end_line` strings and
`block.partial`. -/
structure ReadParams where
  paths : Option (List RawEntry)
  start_line : Option String
  end_line : Option String
  streaming : Bool

/-- Environment of one read invocation. `countLines`, `isBinaryFile`,
`readLines`, `parseDefs` and `extractText` give the outcome the
corresponding external collaborator would produce at the i-th loop
iteration; `addLineNumbers` is the external pure formatter (content,
1-based start line). The read tool consults the ignore policy twice:
`rooIgnore` at the pre-approval batch check and `rooIgnoreExec` at the
per-item execution-time re-check. -/
structure ReadEnv where
  penv : PathEnv
  rooIgnore : Option (String → Bool)
  rooIgnoreExec : Option (String → Bool)
  approve : Bool
  maxReadFileLineState : Option Int
  countLines : Nat → Except FsError Nat
  isBinaryFile : Nat → Except FsError Bool
  readLines : Nat → Except FsError String
  parseDefs : Nat → Except FsError (Option String)
  extractText : Nat → Except FsError String
  addLineNumbers : String → Int → String

/-- Per-item outcome of the read tool. -/
structure FileResult where
  path : String
  content : Option String
  error : Option String
  isTruncated : Bool
  totalLines : Nat
  sourceCodeDef : String
deriving DecidableEq, Repr

/-- One `readLines(absolutePath, endLine, startLine)` call (arguments in
source order). -/
structure ReadLinesCall where
  uri : String
  endLine : Option Int
  startLine : Option Int
deriving DecidableEq, Repr

/-- Observable effects of one iteration of the read loop. -/
structure ReadStepOut where
  countCalls : List String
  binCalls : List String
  readLinesCalls : List ReadLinesCall
  defsCalls : List String
  extractCalls : List String
  result : FileResult
deriving Repr

/-- `currentTotalLines` after the guarded `countFileLines` call (source
lines 161–165): a counting failure degrades to 0 with a console warning. -/
def readTotalLines (env : ReadEnv) (i : Nat) : Nat :=
  match env.countLines i with
  | .ok n => n
  | .error _ => 0

/-- `isBinaryFile(absolutePath).catch(() => false)` (source line 167). -/
def readIsBinary (env : ReadEnv) (i : Nat) : Bool :=
  match env.isBinaryFile i with
  | .ok b => b
  | .error _ => false

/-- The truncation branch's first `Promise.all` member (source line 175):
`maxReadFileLine > 0 ? readLines(absolutePath, maxReadFileLine - 1, 0) :
Promise.resolve("")`. -/
def readTruncPart (env : ReadEnv) (m : Int) (i : Nat) : Except FsError String :=
  if m > 0 then env.readLines i else .ok ""

/-- The `readLines` call the truncation branch records (none when
`maxReadFileLine` is 0, since the source resolves `""` without a call). -/
def readTruncCalls (m : Int) (absolutePath : String) : List ReadLinesCall :=
  if m > 0 then [⟨absolutePath, some (m - 1), some 0⟩] else []

/-- Body of the read execution loop (source lines 148–197): re-validate
access (throwing before any collaborator call on denial), count lines
(failure degrades to 0), detect binary (failure degrades to false), then
either the explicit-range read, the truncation-plus-outline path, or the
generic extraction; any thrown failure is recorded as the item's error. -/
def readItemStep (env : ReadEnv) (isRangeRead : Bool) (startLine endLine : Option Int)
    (maxReadFileLine : Int) (i : Nat) (relPath : String) : ReadStepOut :=
  let absolutePath := env.penv.resolve relPath
  if !(validateAccess env.rooIgnoreExec relPath) then
    ⟨[], [], [], [], [], ⟨relPath, none, some (rooIgnoreError relPath), false, 0, ""⟩⟩
  else
    let currentTotalLines := readTotalLines env i
    let isBinary := readIsBinary env i
    if isRangeRead then
      match env.readLines i with
      | .ok lines =>
        ⟨[absolutePath], [absolutePath], [⟨absolutePath, endLine, startLine⟩], [], [],
         ⟨relPath,
          some (env.addLineNumbers lines (match startLine with | some s => s + 1 | none => 1)),
          none, false, currentTotalLines, ""⟩⟩
      | .error e =>
        ⟨[absolutePath], [absolutePath], [⟨absolutePath, endLine, startLine⟩], [], [],
         ⟨relPath, none, some (errMessageRead e), false, 0, ""⟩⟩
    else if isBinary = false ∧ 0 ≤ maxReadFileLine ∧ (currentTotalLines : Int) > maxReadFileLine then
      let rlCalls := readTruncCalls maxReadFileLine absolutePath
      match readTruncPart env maxReadFileLine i, env.parseDefs i with
      | .ok readContentResult, .ok defResult =>
        let fileContent := if readContentResult.length > 0
          then env.addLineNumbers readContentResult 1 else ""
        let sourceCodeDef := match defResult with
          | some d => if d ≠ "" then "\n\n" ++ d else ""
          | none => ""
        ⟨[absolutePath], [absolutePath], rlCalls, [absolutePath], [],
         ⟨relPath, some fileContent, none, true, currentTotalLines, sourceCodeDef⟩⟩
      | .error e, _ =>
        ⟨[absolutePath], [absolutePath], rlCalls, [absolutePath], [],
         ⟨relPath, none, some (errMessageRead e), false, 0, ""⟩⟩
      | _, .error e =>
        ⟨[absolutePath], [absolutePath], rlCalls, [absolutePath], [],
         ⟨relPath, none, some (errMessageRead e), false, 0, ""⟩⟩
    else
      match env.extractText i with
      | .ok c =>
        ⟨[absolutePath], [absolutePath], [], [], [absolutePath],
         ⟨relPath, some c, none, false, currentTotalLines, ""⟩⟩
      | .error e =>
        ⟨[absolutePath], [absolutePath], [], [], [absolutePath],
         ⟨relPath, none, some (errMessageRead e), false, 0, ""⟩⟩

/-- Accumulated effects of the read loop. -/
structure ReadExecOut where
  countCalls : List String
  binCalls : List String
  readLinesCalls : List ReadLinesCall
  defsCalls : List String
  extractCalls : List String
  results : List FileResult
deriving Repr

/-- The sequential read loop. -/
def readExec (env : ReadEnv) (isRangeRead : Bool) (startLine endLine : Option Int)
    (maxReadFileLine : Int) : Nat → List String → ReadExecOut
  | _, [] => ⟨[], [], [], [], [], []⟩
  | i, p :: rest =>
    let s := readItemStep env isRangeRead startLine endLine maxReadFileLine i p
    let r := readExec env isRangeRead startLine endLine maxReadFileLine (i + 1) rest
    ⟨s.countCalls ++ r.countCalls,
     s.binCalls ++ r.binCalls,
     s.readLinesCalls ++ r.readLinesCalls,
     s.defsCalls ++ r.defsCalls,
     s.extractCalls ++ r.extractCalls,
     s.result :: r.results⟩

/-- The truncation trailer of the read report (source line 207). -/
def truncationTrailer (maxReadFileLine : Int) (totalLines : Nat) : String :=
  "\n\n[Showing only " ++ toString maxReadFileLine ++ " of " ++ toString totalLines
    ++ " total lines. Use start_line and end_line if you need to read more]"

/-- One `<file>` element of the read report (source lines 202–214). -/
def fileXml (maxReadFileLine : Int) (r : FileResult) : String :=
  "  <file>\n    <path>" ++ r.path ++ "</path>\n"
    ++ (match r.content with
        | some c =>
          let contentBlock := if r.isTruncated
            then c ++ truncationTrailer maxReadFileLine r.totalLines ++ r.sourceCodeDef
            else c
          "    <content>\n" ++ contentBlock ++ "\n    </content>\n"
        | none =>
          match r.error with
          | some e => "    <error>" ++ e ++ "</error>\n"
          | none => "")
    ++ "  </file>\n"

/-- The `<files>` report. -/
def readXml (maxReadFileLine : Int) (results : List FileResult) : String :=
  "<files>\n" ++ String.join (results.map (fileXml maxReadFileLine)) ++ "</files>"

/-- The `lineSnippet` approval rationale of the read tool (source lines
99–110); the `t(...)` i18n strings are represented symbolically. -/
inductive ReadReason where
  | linesRange (s e : Int)
  | linesFromToEnd (s : Int)
  | linesFromStartTo (e : Int)
  | definitionsOnly
  | maxLines (m : Int)
  | emptySnippet
deriving DecidableEq, Repr

/-- Source lines 99–110. -/
def lineSnippet (startLine endLine : Option Int) (maxReadFileLine : Int) : ReadReason :=
  match startLine, endLine with
  | some s, some e => .linesRange (s + 1) (e + 1)
  | some s, none => .linesFromToEnd (s + 1)
  | none, some e => .linesFromStartTo (e + 1)
  | none, none =>
    if maxReadFileLine = 0 then .definitionsOnly
    else if maxReadFileLine > 0 then .maxLines maxReadFileLine
    else .emptySnippet

/-- The finalized approval payload of the read tool. -/
structure ReadApprovalReq where
  tool : String
  paths : List ApprovalPath
  reason : ReadReason
deriving DecidableEq, Repr

/-- Everything one read invocation observably does. -/
structure ReadTrace where
  sayEvents : List (String × String)
  announced : Bool
  approvalAsked : Option ReadApprovalReq
  countCalls : List String
  binCalls : List String
  readLinesCalls : List ReadLinesCall
  defsCalls : List String
  extractCalls : List String
  results : List FileResult
  pushed : List String
deriving Repr

/-- The all-empty read trace. -/
def ReadTrace.empty : ReadTrace := ⟨[], false, none, [], [], [], [], [], [], []⟩

/-- The post-validation phase of the read tool (source lines 97–218):
provider state, ignore-policy pre-check, approval, then the sequential
read loop and the `<files>` report. -/
def readAfterRange (env : ReadEnv) (streaming : Bool) (relPaths : List String)
    (isRangeRead : Bool) (startLine endLine : Option Int) : ReadTrace :=
  let maxReadFileLine := env.maxReadFileLineState.getD 500
  let pathsForApproval := pathInfos env.penv env.rooIgnore relPaths
  let disallowedPaths := disallowedOf pathsForApproval
  if disallowedPaths.length > 0 then
    let errorMsg := rooIgnoreError (String.intercalate ", " disallowedPaths)
    { ReadTrace.empty with
      sayEvents := [("rooignore_error", errorMsg)],
      pushed := [toolError errorMsg] }
  else
    let req : ReadApprovalReq :=
      ⟨"readFiles", pathsForApproval.map (fun p => ⟨p.path, p.isOutsideWorkspace⟩),
       lineSnippet startLine endLine maxReadFileLine⟩
    if streaming then
      { ReadTrace.empty with announced := true }
    else if env.approve then
      let ex := readExec env isRangeRead startLine endLine maxReadFileLine 0 relPaths
      { sayEvents := [],
        announced := false,
        approvalAsked := some req,
        countCalls := ex.countCalls,
        binCalls := ex.binCalls,
        readLinesCalls := ex.readLinesCalls,
        defsCalls := ex.defsCalls,
        extractCalls := ex.extractCalls,
        results := ex.results,
        pushed := [readXml maxReadFileLine ex.results] }
    else
      { ReadTrace.empty with approvalAsked := some req }

/-- The 0-based clamped start line of the read tool
(`Math.max(0, parseInt(startLineStr) - 1)`), or `none` when the parameter
is absent or falsy. -/
def readStartLine (params : ReadParams) : Option Int :=
  if jsTruthy params.start_line then
    (params.start_line.bind jsParseInt).map (fun n => max 0 (n - 1))
  else none

/-- The 0-based clamped end line of the read tool. -/
def readEndLine (params : ReadParams) : Option Int :=
  if jsTruthy params.end_line then
    (params.end_line.bind jsParseInt).map (fun n => max 0 (n - 1))
  else none

/-- The batch read tool (`readFilesTool`, source lines 27–219): parameter
validation and filtering, line-range parsing and validation (rejected for
the whole batch before any file is touched), then `readAfterRange`. -/
def readFilesTool (env : ReadEnv) (params : ReadParams) : ReadTrace :=
  match params.paths with
  | none =>
    { ReadTrace.empty with
      pushed := [missingParamError "read_files" "paths"
        "Expected a non-empty array of file paths."] }
  | some input =>
    if input.length = 0 then
      { ReadTrace.empty with
        pushed := [missingParamError "read_files" "paths"
          "Expected a non-empty array of file paths."] }
    else
      let relPaths := filterValidPaths input
      if relPaths.length = 0 then
        { ReadTrace.empty with
          sayEvents := [("error", "The 'paths' parameter array contains only invalid or empty paths.")],
          pushed := [toolError "Invalid 'paths' parameter: No valid paths provided."] }
      else
        let isRangeRead := jsTruthy params.start_line || jsTruthy params.end_line
        if jsTruthy params.start_line ∧ (params.start_line.bind jsParseInt).isNone then
          { ReadTrace.empty with
            sayEvents := [("error", "Failed to parse start_line: " ++ params.start_line.getD "")],
            pushed := [toolError "Invalid start_line value"] }
        else
          if jsTruthy params.end_line ∧ (params.end_line.bind jsParseInt).isNone then
            { ReadTrace.empty with
              sayEvents := [("error", "Failed to parse end_line: " ++ params.end_line.getD "")],
              pushed := [toolError "Invalid end_line value"] }
          else
            match readStartLine params, readEndLine params with
            | some s, some e =>
              if s > e then
                { ReadTrace.empty with
                  sayEvents := [("error", "start_line (" ++ toString (s + 1)
                    ++ ") cannot be greater than end_line (" ++ toString (e + 1) ++ ").")],
                  pushed := [toolError "Invalid line range: start_line > end_line."] }
              else readAfterRange env params.streaming relPaths isRangeRead (some s) (some e)
            | sOpt, eOpt => readAfterRange env params.streaming relPaths isRangeRead sOpt eOpt

/-! ## Helper lemmas: delete tool -/

theorem deleteItemStep_result_path (env : DeleteEnv) (i : Nat) (p : String) :
    (deleteItemStep env i p).result.path = p := by
  unfold deleteItemStep
  cases env.fsDelete i with
  | ok u => rfl
  | error e =>
    by_cases h : e.code = some "FileNotFound" <;> simp [h]

theorem deleteItemStep_call_eq (env : DeleteEnv) (i : Nat) (p : String) :
    (deleteItemStep env i p).call = ⟨env.penv.resolve p, true, false⟩ := by
  unfold deleteItemStep
  cases env.fsDelete i with
  | ok u => rfl
  | error e =>
    by_cases h : e.code = some "FileNotFound" <;> simp [h]

theorem deleteExec_results_map_path (env : DeleteEnv) :
    ∀ (ps : List String) (i : Nat),
      (deleteExec env i ps).results.map ItemResult.path = ps := by
  intro ps
  induction ps with
  | nil => intro i; rfl
  | cons p rest ih =>
    intro i
    simp only [deleteExec, List.map_cons, deleteItemStep_result_path, ih]

theorem deleteExec_results_length (env : DeleteEnv) (ps : List String) (i : Nat) :
    (deleteExec env i ps).results.length = ps.length := by
  have h := congrArg List.length (deleteExec_results_map_path env ps i)
  simpa using h

theorem deleteExec_results_getElem? (env : DeleteEnv) :
    ∀ (ps : List String) (i j : Nat),
      (deleteExec env i ps).results[j]? =
        (ps[j]?).map (fun p => (deleteItemStep env (i + j) p).result) := by
  intro ps
  induction ps with
  | nil => intro i j; simp [deleteExec]
  | cons p rest ih =>
    intro i j
    cases j with
    | zero => simp [deleteExec]
    | succ k =>
      simp only [deleteExec, List.getElem?_cons_succ, ih (i + 1) k]
      have : i + 1 + k = i + (k + 1) := by omega
      rw [this]

theorem deleteExec_handle_lower (env : DeleteEnv) :
    ∀ (ps : List String) (i j : Nat) (a : String),
      (j, a) ∈ (deleteExec env i ps).handleErrorCalls → i ≤ j := by
  intro ps
  induction ps with
  | nil => intro i j a h; simp [deleteExec] at h
  | cons p rest ih =>
    intro i j a h
    simp only [deleteExec] at h
    cases hs : (deleteItemStep env i p).handleErr with
    | some b =>
      rw [hs] at h
      rcases List.mem_cons.mp h with h1 | h2
      · cases h1; omega
      · have := ih (i + 1) j a h2; omega
    | none =>
      rw [hs] at h
      have := ih (i + 1) j a h; omega

theorem deleteExec_handle_mem (env : DeleteEnv) :
    ∀ (ps : List String) (i j : Nat) (a : String),
      ((i + j, a) ∈ (deleteExec env i ps).handleErrorCalls) ↔
        (∃ p, ps[j]? = some p ∧ (deleteItemStep env (i + j) p).handleErr = some a) := by
  intro ps
  induction ps with
  | nil => intro i j a; simp [deleteExec]
  | cons p rest ih =>
    intro i j a
    simp only [deleteExec]
    cases j with
    | zero =>
      cases hs : (deleteItemStep env i p).handleErr with
      | some b =>
        constructor
        · intro h
          rcases List.mem_cons.mp h with h1 | h2
          · have h1' : a = b := (Prod.ext_iff.mp h1).2
            exact ⟨p, by simp, by rw [Nat.add_zero, hs, h1']⟩
          · exact absurd (deleteExec_handle_lower env rest (i + 1) (i + 0) a h2) (by omega)
        · rintro ⟨q, hq, hstep⟩
          have hqp : p = q := by simpa using hq
          subst hqp
          rw [Nat.add_zero, hs] at hstep
          have hab : b = a := by injection hstep
          exact List.mem_cons.mpr (Or.inl (by rw [Nat.add_zero, hab]))
      | none =>
        constructor
        · intro h
          exact absurd (deleteExec_handle_lower env rest (i + 1) (i + 0) a h) (by omega)
        · rintro ⟨q, hq, hstep⟩
          have hqp : p = q := by simpa using hq
          subst hqp
          rw [Nat.add_zero, hs] at hstep
          cases hstep
    | succ k =>
      have hik : i + (k + 1) = (i + 1) + k := by omega
      cases hs : (deleteItemStep env i p).handleErr with
      | some b =>
        constructor
        · intro h
          rcases List.mem_cons.mp h with h1 | h2
          · exfalso
            have hfst : i + (k + 1) = i := (Prod.ext_iff.mp h1).1
            omega
          · rw [hik] at h2
            rcases (ih (i + 1) k a).mp h2 with ⟨q, hq, hstep⟩
            exact ⟨q, by simpa using hq, by rw [hik]; exact hstep⟩
        · rintro ⟨q, hq, hstep⟩
          right
          rw [hik]
          exact (ih (i + 1) k a).mpr ⟨q, by simpa using hq, by rw [← hik]; exact hstep⟩
      | none =>
        constructor
        · intro h
          rw [hik] at h
          rcases (ih (i + 1) k a).mp h with ⟨q, hq, hstep⟩
          exact ⟨q, by simpa using hq, by rw [hik]; exact hstep⟩
        · rintro ⟨q, hq, hstep⟩
          rw [hik]
          exact (ih (i + 1) k a).mpr ⟨q, by simpa using hq, by rw [← hik]; exact hstep⟩

theorem deleteDisallowed_nil (env : DeleteEnv) (relPaths : List String)
    (hall : ∀ p ∈ relPaths, validateAccess env.rooIgnore p = true) :
    deleteDisallowedPaths env relPaths = [] := by
  unfold deleteDisallowedPaths deletePathsForApproval
  rw [List.filter_map]
  have h : List.filter ((fun p => !p.accessAllowed) ∘ deletePathInfo env) relPaths = [] := by
    rw [List.filter_eq_nil_iff]
    intro a ha
    simp [Function.comp, deletePathInfo, hall a ha]
  rw [h]
  rfl

/-- The delete-tool approval payload on the filtered paths. -/
def deleteApprovalReq (env : DeleteEnv) (relPaths : List String) : ApprovalReq :=
  ⟨"deleteItems",
   (deletePathsForApproval env relPaths).map (fun p => ⟨p.readablePath, p.isOutsideWorkspace⟩),
   "Will attempt to PERMANENTLY delete " ++ toString relPaths.length
     ++ " item(s) (files or directories). This action cannot be undone."⟩

theorem deleteItemsTool_approved (env : DeleteEnv) (params : DeleteParams)
    (input : List RawEntry) (hp : params.paths = some input) (hne : ¬ input.length = 0)
    (hrne : ¬ (filterValidPaths input).length = 0)
    (hall : ∀ p ∈ filterValidPaths input, validateAccess env.rooIgnore p = true)
    (hstream : params.streaming = false) (happ : env.approve = true) :
    deleteItemsTool env params =
      { sayEvents := [("text", deleteSummary (deleteExec env 0 (filterValidPaths input)).results)],
        announced := false,
        approvalAsked := some (deleteApprovalReq env (filterValidPaths input)),
        calls := (deleteExec env 0 (filterValidPaths input)).calls,
        results := (deleteExec env 0 (filterValidPaths input)).results,
        handleErrorCalls := (deleteExec env 0 (filterValidPaths input)).handleErrorCalls,
        pushed := [deleteXml (deleteExec env 0 (filterValidPaths input)).results],
        edited := (deleteExec env 0 (filterValidPaths input)).edited } := by
  have hdis := deleteDisallowed_nil env (filterValidPaths input) hall
  unfold deleteItemsTool
  rw [hp]
  simp only [if_neg hne, if_neg hrne, hdis, hstream, happ, deleteApprovalReq]
  rfl

/-- Branch-enumeration helper: for any delete invocation with approval
denied, either no approval was requested at all, or the trace performed no
delete call and pushed nothing. -/
theorem delete_denied_cases (env : DeleteEnv) (params : DeleteParams)
    (hden : env.approve = false) :
    ((deleteItemsTool env params).calls = [] ∧ (deleteItemsTool env params).results = [] ∧
      (deleteItemsTool env params).pushed = []) ∨
    ¬ ((deleteItemsTool env params).approvalAsked).isSome := by
  unfold deleteItemsTool
  (repeat' split) <;> simp_all [DeleteTrace.empty] <;> (repeat' split) <;> simp_all

/-! ## Helper lemmas: write tool -/

theorem writeItemStep_result_path (env : WriteEnv) (i : Nat) (item : WriteItem) :
    (writeItemStep env i item).result.path = item.path := by
  unfold writeItemStep
  cases hm : env.mkdir i <;> cases hw : env.writeFile i <;>
    simp only [hm, hw] <;> split <;> rfl

theorem writeExec_results_map_path (env : WriteEnv) :
    ∀ (items : List WriteItem) (i : Nat),
      (writeExec env i items).results.map ItemResult.path = items.map WriteItem.path := by
  intro items
  induction items with
  | nil => intro i; rfl
  | cons item rest ih =>
    intro i
    simp only [writeExec, List.map_cons, writeItemStep_result_path, ih]

theorem writeExec_results_length (env : WriteEnv) (items : List WriteItem) (i : Nat) :
    (writeExec env i items).results.length = items.length := by
  have h := congrArg List.length (writeExec_results_map_path env items i)
  simpa using h

theorem writeDisallowed_nil (env : WriteEnv) (items : List WriteItem)
    (hall : ∀ item ∈ items, validateAccess env.rooIgnore item.path = true) :
    writeDisallowedPaths env items = [] := by
  unfold writeDisallowedPaths writePathsForApproval
  rw [List.filter_map]
  have h : List.filter ((fun p => !p.accessAllowed) ∘ (fun item : WriteItem =>
      (⟨item.path, env.penv.readable item.path,
        env.penv.outside (env.penv.resolve item.path),
        validateAccess env.rooIgnore item.path⟩ : PathInfo))) items = [] := by
    rw [List.filter_eq_nil_iff]
    intro a ha
    simp [Function.comp, hall a ha]
  rw [h]
  rfl

/-- The write-tool approval payload on the processed items. -/
def writeApprovalReqOf (env : WriteEnv) (itemsToProcess : List WriteItem) : WriteApprovalReq :=
  ⟨"writeFiles",
   (writePathsForApproval env itemsToProcess).map (fun p =>
     ⟨p.readablePath, p.isOutsideWorkspace, writeEntryStatus env itemsToProcess p.path⟩),
   writeReason env itemsToProcess⟩

theorem writeFilesTool_approved (env : WriteEnv) (params : WriteParams)
    (itemsInput : List RawWriteItem) (hp : params.items = some itemsInput)
    (hne : ¬ itemsInput.length = 0)
    (hflag : ¬ ((writeValidateLoop itemsInput 0 [] []).1.length > 0 ∧
      ((writeValidateLoop itemsInput 0 [] []).1.any (fun err =>
        strContains err "missing a valid 'path'" && strContains err "missing 'content'")) = true))
    (hitems : ¬ ((writeItemsToProcess itemsInput (writeValidateLoop itemsInput 0 [] []).1
        (writeValidateLoop itemsInput 0 [] []).2).length = 0 ∧ itemsInput.length > 0))
    (hall : ∀ item ∈ writeItemsToProcess itemsInput (writeValidateLoop itemsInput 0 [] []).1
        (writeValidateLoop itemsInput 0 [] []).2,
      validateAccess env.rooIgnore item.path = true)
    (hstream : params.streaming = false) (happ : env.approve = true) :
    writeFilesTool env params =
      (let itemsToProcess := writeItemsToProcess itemsInput
        (writeValidateLoop itemsInput 0 [] []).1 (writeValidateLoop itemsInput 0 [] []).2
       { sayEvents := [("text", writeSummary (writeExec env 0 itemsToProcess).results)],
         announced := false,
         approvalAsked := some (writeApprovalReqOf env itemsToProcess),
         mkdirCalls := (writeExec env 0 itemsToProcess).mkdirCalls,
         writeCalls := (writeExec env 0 itemsToProcess).writeCalls,
         results := (writeExec env 0 itemsToProcess).results,
         handleErrorCalls := (writeExec env 0 itemsToProcess).handleErrorCalls,
         pushed := [writeXml (writeExec env 0 itemsToProcess).results],
         edited := (writeExec env 0 itemsToProcess).edited }) := by
  have hdis := writeDisallowed_nil env _ hall
  unfold writeFilesTool
  rw [hp]
  simp only [if_neg hne, if_neg hflag, if_neg hitems, hdis, hstream, happ, writeApprovalReqOf]
  rfl

/-- Branch-enumeration helper for write denial. -/
theorem write_denied_cases (env : WriteEnv) (params : WriteParams)
    (hden : env.approve = false) :
    ((writeFilesTool env params).mkdirCalls = [] ∧ (writeFilesTool env params).writeCalls = [] ∧
      (writeFilesTool env params).results = [] ∧ (writeFilesTool env params).pushed = []) ∨
    ¬ ((writeFilesTool env params).approvalAsked).isSome := by
  unfold writeFilesTool
  (repeat' split) <;> simp_all [WriteTrace.empty] <;> (repeat' split) <;> simp_all

/-! ## Helper lemmas: create tool -/

theorem createItemStep_result_path (env : CreateEnv) (i : Nat) (p : String) :
    (createItemStep env i p).result.path = p := by
  unfold createItemStep
  cases env.mkdir i with
  | ok u => rfl
  | error e => rfl

theorem createExec_results_map_path (env : CreateEnv) :
    ∀ (ps : List String) (i : Nat),
      (createExec env i ps).results.map ItemResult.path = ps := by
  intro ps
  induction ps with
  | nil => intro i; rfl
  | cons p rest ih =>
    intro i
    simp only [createExec, List.map_cons, createItemStep_result_path, ih]

theorem createExec_calls_length (env : CreateEnv) :
    ∀ (ps : List String) (i : Nat), (createExec env i ps).calls.length = ps.length := by
  intro ps
  induction ps with
  | nil => intro i; rfl
  | cons p rest ih =>
    intro i
    simp only [createExec, List.length_cons, ih]

/-- The create-tool approval payload on the filtered paths. -/
def createApprovalReq (env : CreateEnv) (relDirPaths : List String) : ApprovalReq :=
  ⟨"createDirectories",
   relDirPaths.map (fun p => ⟨env.penv.readable p, env.penv.outside (env.penv.resolve p)⟩),
   "Will attempt to create " ++ toString relDirPaths.length
     ++ " director(y/ies) and any necessary parent directories."⟩

theorem createDirectoriesTool_approved (env : CreateEnv) (params : CreateParams)
    (input : List RawEntry) (hp : params.paths = some input) (hne : ¬ input.length = 0)
    (hrne : ¬ (filterValidPaths input).length = 0)
    (hstream : params.streaming = false) (happ : env.approve = true) :
    createDirectoriesTool env params =
      { sayEvents := [("text", createSummary (createExec env 0 (filterValidPaths input)).results)],
        announced := false,
        approvalAsked := some (createApprovalReq env (filterValidPaths input)),
        calls := (createExec env 0 (filterValidPaths input)).calls,
        results := (createExec env 0 (filterValidPaths input)).results,
        handleErrorCalls := (createExec env 0 (filterValidPaths input)).handleErrorCalls,
        pushed := [createXml (createExec env 0 (filterValidPaths input)).results],
        edited := (createExec env 0 (filterValidPaths input)).edited } := by
  unfold createDirectoriesTool
  rw [hp]
  simp only [if_neg hne, if_neg hrne, hstream, happ, createApprovalReq]
  rfl

/-- Branch-enumeration helper for create denial. -/
theorem create_denied_cases (env : CreateEnv) (params : CreateParams)
    (hden : env.approve = false) :
    ((createDirectoriesTool env params).calls = [] ∧
      (createDirectoriesTool env params).results = [] ∧
      (createDirectoriesTool env params).pushed = []) ∨
    ¬ ((createDirectoriesTool env params).approvalAsked).isSome := by
  unfold createDirectoriesTool
  (repeat' split) <;> simp_all [CreateTrace.empty] <;> (repeat' split) <;> simp_all

/-! ## Helper lemmas: list tool -/

theorem listItemStep_result_path (env : ListEnv) (rec sh : Bool) (i : Nat) (p : String) :
    (listItemStep env rec sh i p).result.path = p := by
  unfold listItemStep
  cases hl : env.listFiles i <;> split <;> simp [hl]

theorem listExec_results_map_path (env : ListEnv) (rec sh : Bool) :
    ∀ (ps : List String) (i : Nat),
      (listExec env rec sh i ps).results.map ListResult.path = ps := by
  intro ps
  induction ps with
  | nil => intro i; rfl
  | cons p rest ih =>
    intro i
    simp only [listExec, List.map_cons, listItemStep_result_path, ih]

theorem listDisallowed_nil (penv : PathEnv) (ctrl : Option (String → Bool))
    (relPaths : List String)
    (hall : ∀ p ∈ relPaths, validateAccess ctrl p = true) :
    disallowedOf (pathInfos penv ctrl relPaths) = [] := by
  unfold disallowedOf pathInfos
  rw [List.filter_map]
  have h : List.filter ((fun p => !p.accessAllowed) ∘ (fun p : String =>
      (⟨penv.readable p, penv.outside (penv.resolve p),
        validateAccess ctrl p⟩ : ReadPathInfo))) relPaths = [] := by
    rw [List.filter_eq_nil_iff]
    intro a ha
    simp [Function.comp, hall a ha]
  rw [h]
  rfl

/-- The list-tool approval payload. -/
def listApprovalReq (env : ListEnv) (relDirPaths : List String) (recursive : Bool) :
    ListApprovalReq :=
  ⟨"listDirectories",
   (pathInfos env.penv env.rooIgnore relDirPaths).map (fun p => ⟨p.path, p.isOutsideWorkspace⟩),
   recursive⟩

theorem listDirectoriesTool_approved (env : ListEnv) (params : ListParams)
    (input : List RawEntry) (hp : params.paths = some input) (hne : ¬ input.length = 0)
    (hrne : ¬ (filterValidPaths input).length = 0)
    (hall : ∀ p ∈ filterValidPaths input, validateAccess env.rooIgnore p = true)
    (hstream : params.streaming = false) (happ : env.approve = true) :
    listDirectoriesTool env params =
      (let recursive := (params.recursive.map String.toLower) = some "true"
       let ex := listExec env recursive (env.showRooIgnoredFilesState.getD true) 0
         (filterValidPaths input)
       { sayEvents := [],
         announced := false,
         approvalAsked := some (listApprovalReq env (filterValidPaths input) recursive),
         calls := ex.calls,
         results := ex.results,
         handleErrorCalls := ex.handleErrorCalls,
         pushed := [listXml ex.results] }) := by
  have hdis := listDisallowed_nil env.penv env.rooIgnore (filterValidPaths input) hall
  unfold listDirectoriesTool
  rw [hp]
  simp only [if_neg hne, if_neg hrne, hdis, hstream, happ, listApprovalReq]
  rfl

/-- Branch-enumeration helper for list denial. -/
theorem list_denied_cases (env : ListEnv) (params : ListParams)
    (hden : env.approve = false) :
    ((listDirectoriesTool env params).calls = [] ∧ (listDirectoriesTool env params).results = [] ∧
      (listDirectoriesTool env params).pushed = []) ∨
    ¬ ((listDirectoriesTool env params).approvalAsked).isSome := by
  unfold listDirectoriesTool
  simp only [hden]
  (repeat' split) <;> simp_all [ListTrace.empty]

/-! ## Helper lemmas: read tool -/

theorem readItemStep_result_path (env : ReadEnv) (isR : Bool) (s e : Option Int) (m : Int)
    (i : Nat) (p : String) :
    (readItemStep env isR s e m i p).result.path = p := by
  unfold readItemStep
  dsimp only
  (repeat' split) <;> rfl

theorem readExec_results_map_path (env : ReadEnv) (isR : Bool) (s e : Option Int) (m : Int) :
    ∀ (ps : List String) (i : Nat),
      (readExec env isR s e m i ps).results.map FileResult.path = ps := by
  intro ps
  induction ps with
  | nil => intro i; rfl
  | cons p rest ih =>
    intro i
    simp only [readExec, List.map_cons, readItemStep_result_path, ih]

/-- Glue: an accepted read invocation (valid non-empty paths, well-formed
range parameters) reaches `readAfterRange`. -/
theorem readFilesTool_run (env : ReadEnv) (params : ReadParams) (input : List RawEntry)
    (hp : params.paths = some input) (hne : ¬ input.length = 0)
    (hrne : ¬ (filterValidPaths input).length = 0)
    (hs1 : ¬ (jsTruthy params.start_line = true ∧
      (params.start_line.bind jsParseInt).isNone = true))
    (hs2 : ¬ (jsTruthy params.end_line = true ∧
      (params.end_line.bind jsParseInt).isNone = true))
    (hs3 : ∀ s e, readStartLine params = some s → readEndLine params = some e → ¬ s > e) :
    readFilesTool env params =
      readAfterRange env params.streaming (filterValidPaths input)
        (jsTruthy params.start_line || jsTruthy params.end_line)
        (readStartLine params) (readEndLine params) := by
  unfold readFilesTool
  rw [hp]
  simp only [if_neg hne, if_neg hrne, if_neg hs1, if_neg hs2]
  cases hsl : readStartLine params with
  | none =>
    cases hel : readEndLine params with
    | none => rfl
    | some e => rfl
  | some s =>
    cases hel : readEndLine params with
    | none => rfl
    | some e =>
      dsimp only
      rw [if_neg (hs3 s e hsl hel)]

/-- The read-tool approval payload. -/
def readApprovalReqOf (env : ReadEnv) (relPaths : List String)
    (startLine endLine : Option Int) : ReadApprovalReq :=
  ⟨"readFiles",
   (pathInfos env.penv env.rooIgnore relPaths).map (fun p => ⟨p.path, p.isOutsideWorkspace⟩),
   lineSnippet startLine endLine (env.maxReadFileLineState.getD 500)⟩

theorem readAfterRange_approved (env : ReadEnv) (streaming : Bool) (relPaths : List String)
    (isR : Bool) (startLine endLine : Option Int)
    (hall : ∀ p ∈ relPaths, validateAccess env.rooIgnore p = true)
    (hstream : streaming = false) (happ : env.approve = true) :
    readAfterRange env streaming relPaths isR startLine endLine =
      (let ex := readExec env isR startLine endLine (env.maxReadFileLineState.getD 500) 0 relPaths
       { sayEvents := [],
         announced := false,
         approvalAsked := some (readApprovalReqOf env relPaths startLine endLine),
         countCalls := ex.countCalls,
         binCalls := ex.binCalls,
         readLinesCalls := ex.readLinesCalls,
         defsCalls := ex.defsCalls,
         extractCalls := ex.extractCalls,
         results := ex.results,
         pushed := [readXml (env.maxReadFileLineState.getD 500) ex.results] }) := by
  have hdis := listDisallowed_nil env.penv env.rooIgnore relPaths hall
  unfold readAfterRange
  simp only [hdis, hstream, happ, readApprovalReqOf]
  rfl

theorem readAfterRange_policy_rejected (env : ReadEnv) (streaming : Bool)
    (relPaths : List String) (isR : Bool) (startLine endLine : Option Int)
    (hdis : ∃ p ∈ relPaths, validateAccess env.rooIgnore p = false) :
    readAfterRange env streaming relPaths isR startLine endLine =
      { ReadTrace.empty with
        sayEvents := [("rooignore_error",
          rooIgnoreError (String.intercalate ", "
            (disallowedOf (pathInfos env.penv env.rooIgnore relPaths))))],
        pushed := [toolError (rooIgnoreError (String.intercalate ", "
          (disallowedOf (pathInfos env.penv env.rooIgnore relPaths))))] } := by
  obtain ⟨p, hmem, hfalse⟩ := hdis
  have hinfo : (⟨env.penv.readable p, env.penv.outside (env.penv.resolve p),
      validateAccess env.rooIgnore p⟩ : ReadPathInfo) ∈
      pathInfos env.penv env.rooIgnore relPaths := by
    unfold pathInfos
    exact List.mem_map_of_mem _ hmem
  have hflt : (⟨env.penv.readable p, env.penv.outside (env.penv.resolve p),
      validateAccess env.rooIgnore p⟩ : ReadPathInfo) ∈
      (pathInfos env.penv env.rooIgnore relPaths).filter (fun q => !q.accessAllowed) := by
    rw [List.mem_filter]
    exact ⟨hinfo, by simp [hfalse]⟩
  have hne : disallowedOf (pathInfos env.penv env.rooIgnore relPaths) ≠ [] := by
    unfold disallowedOf
    intro hnil
    rw [List.map_eq_nil_iff] at hnil
    rw [hnil] at hflt
    simp at hflt
  have hlen : (disallowedOf (pathInfos env.penv env.rooIgnore relPaths)).length > 0 :=
    List.length_pos.mpr hne
  unfold readAfterRange
  rw [if_pos hlen]

/-- Branch-enumeration helper for read denial. -/
theorem read_denied_cases (env : ReadEnv) (params : ReadParams)
    (hden : env.approve = false) :
    ((readFilesTool env params).countCalls = [] ∧ (readFilesTool env params).binCalls = [] ∧
      (readFilesTool env params).readLinesCalls = [] ∧
      (readFilesTool env params).defsCalls = [] ∧
      (readFilesTool env params).extractCalls = [] ∧
      (readFilesTool env params).results = [] ∧ (readFilesTool env params).pushed = []) ∨
    ¬ ((readFilesTool env params).approvalAsked).isSome := by
  unfold readFilesTool readAfterRange
  simp only [hden]
  (repeat' split) <;> simp_all [ReadTrace.empty]

theorem readExec_results_length (env : ReadEnv) (isR : Bool) (s e : Option Int) (m : Int)
    (ps : List String) (i : Nat) :
    (readExec env isR s e m i ps).results.length = ps.length := by
  have h := congrArg List.length (readExec_results_map_path env isR s e m ps i)
  simpa using h

theorem deleteDisallowed_ne_nil (env : DeleteEnv) (relPaths : List String)
    (hdis : ∃ p ∈ relPaths, validateAccess env.rooIgnore p = false) :
    (deleteDisallowedPaths env relPaths).length > 0 := by
  obtain ⟨p, hmem, hfalse⟩ := hdis
  have hinfo : deletePathInfo env p ∈ deletePathsForApproval env relPaths :=
    List.mem_map_of_mem _ hmem
  have hflt : deletePathInfo env p ∈
      (deletePathsForApproval env relPaths).filter (fun q => !q.accessAllowed) := by
    rw [List.mem_filter]
    refine ⟨hinfo, ?_⟩
    simp [deletePathInfo, hfalse]
  apply List.length_pos.mpr
  unfold deleteDisallowedPaths
  intro hnil
  rw [List.map_eq_nil_iff] at hnil
  rw [hnil] at hflt
  simp at hflt

theorem delete_policy_rejected (env : DeleteEnv) (params : DeleteParams)
    (input : List RawEntry) (hp : params.paths = some input) (hne : ¬ input.length = 0)
    (hrne : ¬ (filterValidPaths input).length = 0)
    (hdis : ∃ p ∈ filterValidPaths input, validateAccess env.rooIgnore p = false) :
    deleteItemsTool env params =
      { DeleteTrace.empty with
        sayEvents := [("rooignore_error",
          rooIgnoreError ("Deletion prevented for ignored path(s): "
            ++ String.intercalate ", " (deleteDisallowedPaths env (filterValidPaths input))))],
        pushed := [toolError (rooIgnoreError ("Deletion prevented for ignored path(s): "
          ++ String.intercalate ", " (deleteDisallowedPaths env (filterValidPaths input))))] } := by
  have hlen := deleteDisallowed_ne_nil env (filterValidPaths input) hdis
  unfold deleteItemsTool
  rw [hp]
  simp only [if_neg hne, if_neg hrne]
  rw [if_pos hlen]

theorem listDisallowed_ne_nil (penv : PathEnv) (ctrl : Option (String → Bool))
    (relPaths : List String)
    (hdis : ∃ p ∈ relPaths, validateAccess ctrl p = false) :
    (disallowedOf (pathInfos penv ctrl relPaths)).length > 0 := by
  obtain ⟨p, hmem, hfalse⟩ := hdis
  have hinfo : (⟨penv.readable p, penv.outside (penv.resolve p),
      validateAccess ctrl p⟩ : ReadPathInfo) ∈ pathInfos penv ctrl relPaths :=
    List.mem_map_of_mem _ hmem
  have hflt : (⟨penv.readable p, penv.outside (penv.resolve p),
      validateAccess ctrl p⟩ : ReadPathInfo) ∈
      (pathInfos penv ctrl relPaths).filter (fun q => !q.accessAllowed) := by
    rw [List.mem_filter]
    exact ⟨hinfo, by simp [hfalse]⟩
  apply List.length_pos.mpr
  unfold disallowedOf
  intro hnil
  rw [List.map_eq_nil_iff] at hnil
  rw [hnil] at hflt
  simp at hflt

theorem list_policy_rejected (env : ListEnv) (params : ListParams)
    (input : List RawEntry) (hp : params.paths = some input) (hne : ¬ input.length = 0)
    (hrne : ¬ (filterValidPaths input).length = 0)
    (hdis : ∃ p ∈ filterValidPaths input, validateAccess env.rooIgnore p = false) :
    listDirectoriesTool env params =
      { ListTrace.empty with
        sayEvents := [("rooignore_error",
          rooIgnoreError (String.intercalate ", "
            (disallowedOf (pathInfos env.penv env.rooIgnore (filterValidPaths input)))))],
        pushed := [toolError (rooIgnoreError (String.intercalate ", "
          (disallowedOf (pathInfos env.penv env.rooIgnore (filterValidPaths input)))))] } := by
  have hlen := listDisallowed_ne_nil env.penv env.rooIgnore (filterValidPaths input) hdis
  unfold listDirectoriesTool
  rw [hp]
  simp only [if_neg hne, if_neg hrne]
  rw [if_pos hlen]

/-! ## Helper lemmas: execution-time policy independence
(the delete, write and create loops never consult the policy again) -/

theorem deleteItemStep_exec_indep (pe : PathEnv) (ri rie f : Option (String → Bool))
    (ap : Bool) (fd : Nat → Except FsError Unit) (i : Nat) (p : String) :
    deleteItemStep ⟨pe, ri, f, ap, fd⟩ i p = deleteItemStep ⟨pe, ri, rie, ap, fd⟩ i p := rfl

theorem deleteExec_exec_indep (pe : PathEnv) (ri rie f : Option (String → Bool)) (ap : Bool)
    (fd : Nat → Except FsError Unit) :
    ∀ (ps : List String) (i : Nat),
      deleteExec ⟨pe, ri, f, ap, fd⟩ i ps = deleteExec ⟨pe, ri, rie, ap, fd⟩ i ps := by
  intro ps
  induction ps with
  | nil => intro i; rfl
  | cons p rest ih =>
    intro i
    simp only [deleteExec, ih, deleteItemStep_exec_indep pe ri rie f ap fd]

theorem deleteItemsTool_exec_indep (pe : PathEnv) (ri rie f : Option (String → Bool))
    (ap : Bool) (fd : Nat → Except FsError Unit) (params : DeleteParams) :
    deleteItemsTool ⟨pe, ri, f, ap, fd⟩ params = deleteItemsTool ⟨pe, ri, rie, ap, fd⟩ params := by
  have hex := deleteExec_exec_indep pe ri rie f ap fd
  unfold deleteItemsTool
  simp only [hex]
  rfl

theorem writeItemStep_exec_indep (pe : PathEnv) (dn : String → String)
    (ri rie f : Option (String → Bool)) (ap : Bool) (fe : String → Bool)
    (mk wf : Nat → Except FsError Unit) (i : Nat) (item : WriteItem) :
    writeItemStep ⟨pe, dn, ri, f, ap, fe, mk, wf⟩ i item =
      writeItemStep ⟨pe, dn, ri, rie, ap, fe, mk, wf⟩ i item := rfl

theorem writeExec_exec_indep (pe : PathEnv) (dn : String → String)
    (ri rie f : Option (String → Bool)) (ap : Bool) (fe : String → Bool)
    (mk wf : Nat → Except FsError Unit) :
    ∀ (items : List WriteItem) (i : Nat),
      writeExec ⟨pe, dn, ri, f, ap, fe, mk, wf⟩ i items =
        writeExec ⟨pe, dn, ri, rie, ap, fe, mk, wf⟩ i items := by
  intro items
  induction items with
  | nil => intro i; rfl
  | cons item rest ih =>
    intro i
    simp only [writeExec, ih, writeItemStep_exec_indep pe dn ri rie f ap fe mk wf]

theorem writeFilesTool_exec_indep (pe : PathEnv) (dn : String → String)
    (ri rie f : Option (String → Bool)) (ap : Bool) (fe : String → Bool)
    (mk wf : Nat → Except FsError Unit) (params : WriteParams) :
    writeFilesTool ⟨pe, dn, ri, f, ap, fe, mk, wf⟩ params =
      writeFilesTool ⟨pe, dn, ri, rie, ap, fe, mk, wf⟩ params := by
  have hex := writeExec_exec_indep pe dn ri rie f ap fe mk wf
  unfold writeFilesTool
  simp only [hex]
  rfl

theorem createItemStep_policy_indep (pe : PathEnv) (ri rie f g : Option (String → Bool))
    (ap : Bool) (mk : Nat → Except FsError Unit) (i : Nat) (p : String) :
    createItemStep ⟨pe, f, g, ap, mk⟩ i p = createItemStep ⟨pe, ri, rie, ap, mk⟩ i p := rfl

theorem createExec_policy_indep (pe : PathEnv) (ri rie f g : Option (String → Bool))
    (ap : Bool) (mk : Nat → Except FsError Unit) :
    ∀ (ps : List String) (i : Nat),
      createExec ⟨pe, f, g, ap, mk⟩ i ps = createExec ⟨pe, ri, rie, ap, mk⟩ i ps := by
  intro ps
  induction ps with
  | nil => intro i; rfl
  | cons p rest ih =>
    intro i
    simp only [createExec, ih, createItemStep_policy_indep pe ri rie f g ap mk]

theorem createDirectoriesTool_policy_indep (pe : PathEnv) (ri rie f g : Option (String → Bool))
    (ap : Bool) (mk : Nat → Except FsError Unit) (params : CreateParams) :
    createDirectoriesTool ⟨pe, f, g, ap, mk⟩ params =
      createDirectoriesTool ⟨pe, ri, rie, ap, mk⟩ params := by
  have hex := createExec_policy_indep pe ri rie f g ap mk
  unfold createDirectoriesTool
  simp only [hex]

theorem deleteExec_calls_flags (env : DeleteEnv) :
    ∀ (ps : List String) (i : Nat) (c : DeleteCall),
      c ∈ (deleteExec env i ps).calls → c.recursive = true ∧ c.useTrash = false := by
  intro ps
  induction ps with
  | nil => intro i c h; simp [deleteExec] at h
  | cons p rest ih =>
    intro i c h
    simp only [deleteExec] at h
    rcases List.mem_cons.mp h with h1 | h2
    · subst h1
      rw [deleteItemStep_call_eq]
      exact ⟨rfl, rfl⟩
    · exact ih (i + 1) c h2

/-! ## Witness environments (concrete collaborator instantiations) -/

/-- A concrete path environment for witnesses. -/
def wPath : PathEnv := ⟨"/w", fun p => "/w/" ++ p, fun p => p, fun _ => false⟩

/-- A delete environment that approves and deletes successfully. -/
def wDelete : DeleteEnv := ⟨wPath, none, none, true, fun _ => .ok ()⟩

/-- A delete environment whose first delete fails with a permission-style
error and whose second succeeds. -/
def wDeleteMixed : DeleteEnv :=
  ⟨wPath, none, none, true,
   fun i => if i = 0 then .error ⟨some "EPERM", some "permission denied"⟩ else .ok ()⟩

/-- A delete environment that denies approval. -/
def wDeleteDeny : DeleteEnv := ⟨wPath, none, none, false, fun _ => .ok ()⟩

/-- A read environment over a 600-line non-binary file with a 500-line
cap, successful collaborators and a non-empty outline. -/
def wRead : ReadEnv :=
  ⟨wPath, none, none, true, some 500,
   fun _ => .ok 600, fun _ => .ok false, fun _ => .ok "LINES",
   fun _ => .ok (some "DEFS"), fun _ => .ok "FULL", fun c n => c ++ "#" ++ toString n⟩

/-- A read environment that denies approval. -/
def wReadDeny : ReadEnv :=
  ⟨wPath, none, none, false, some 500,
   fun _ => .ok 600, fun _ => .ok false, fun _ => .ok "LINES",
   fun _ => .ok (some "DEFS"), fun _ => .ok "FULL", fun c n => c ++ "#" ++ toString n⟩

/-- A create environment that approves and succeeds. -/
def wCreate : CreateEnv := ⟨wPath, none, none, true, fun _ => .ok ()⟩

/-- A create environment that denies approval. -/
def wCreateDeny : CreateEnv := ⟨wPath, none, none, false, fun _ => .ok ()⟩

/-- A create environment whose ignore policy denies every path (the
create tool never consults it). -/
def wCreateIgnoreAll : CreateEnv :=
  ⟨wPath, some (fun _ => false), some (fun _ => false), true, fun _ => .ok ()⟩

/-- A list environment that approves and lists successfully. -/
def wList : ListEnv :=
  ⟨wPath, none, none, true, none, fun _ => .ok (["f"], false), fun a _ _ _ => a⟩

/-- A list environment that denies approval. -/
def wListDeny : ListEnv :=
  ⟨wPath, none, none, false, none, fun _ => .ok (["f"], false), fun a _ _ _ => a⟩

/-- A write environment that approves and writes successfully (files live
directly in the working directory, so no parent directory is created). -/
def wWrite : WriteEnv :=
  ⟨wPath, fun _ => "/w", none, none, true, fun _ => false, fun _ => .ok (), fun _ => .ok ()⟩

/-- A write environment that denies approval. -/
def wWriteDeny : WriteEnv :=
  ⟨wPath, fun _ => "/w", none, none, false, fun _ => false, fun _ => .ok (), fun _ => .ok ()⟩

/-- A delete environment whose execution-time policy answer is a blanket
denial while the pre-approval policy allows everything. -/
def wDeleteExecDeny : DeleteEnv :=
  ⟨wPath, none, some (fun _ => false), true, fun _ => .ok ()⟩

/-- A read environment for policy-rejection witnesses: the ignore policy
denies every path. -/
def wReadIgnoreAll : ReadEnv :=
  ⟨wPath, some (fun _ => false), some (fun _ => false), true, some 500,
   fun _ => .ok 600, fun _ => .ok false, fun _ => .ok "LINES",
   fun _ => .ok (some "DEFS"), fun _ => .ok "FULL", fun c n => c ++ "#" ++ toString n⟩

/-- A delete environment whose ignore policy denies every path. -/
def wDeleteIgnoreAll : DeleteEnv :=
  ⟨wPath, some (fun _ => false), some (fun _ => false), true, fun _ => .ok ()⟩

/-- A list environment whose ignore policy denies every path. -/
def wListIgnoreAll : ListEnv :=
  ⟨wPath, some (fun _ => false), some (fun _ => false), true, none,
   fun _ => .ok (["f"], false), fun a _ _ _ => a⟩

/-! ## Claims -/

/-- C10: every deletion the delete tool performs is permanent and
recursive — each underlying `workspace.fs.delete` call carries
`recursive: true` and `useTrash: false`, for every environment and every
parameter bag (the tool reads only `paths`, so no caller-supplied flag
can request trash-based or non-recursive deletion). -/
theorem deleteTool_always_recursive_permanent (env : DeleteEnv) (params : DeleteParams)
    (c : DeleteCall) (hc : c ∈ (deleteItemsTool env params).calls) :
    c.recursive = true ∧ c.useTrash = false := by
  unfold deleteItemsTool at hc
  (repeat' split at hc) <;>
    first
      | exact deleteExec_calls_flags env _ 0 c (by simpa [DeleteTrace.empty] using hc)
      | (simp [DeleteTrace.empty] at hc <;> (repeat' split at hc) <;>
          first
            | exact deleteExec_calls_flags env _ 0 c (by simpa using hc)
            | simp_all)

/-- Witness for C10: a concrete approved one-item batch performs exactly
one delete call, with `recursive: true` and `useTrash: false`. -/
theorem deleteTool_always_recursive_permanent_witness :
    (deleteItemsTool wDelete ⟨some [some "a.txt"], false⟩).calls =
      [⟨"/w/a.txt", true, false⟩] ∧
    (⟨"/w/a.txt", true, false⟩ : DeleteCall).recursive = true ∧
    (⟨"/w/a.txt", true, false⟩ : DeleteCall).useTrash = false := by
  refine ⟨by decide, ?_⟩
  exact deleteTool_always_recursive_permanent wDelete ⟨some [some "a.txt"], false⟩
    ⟨"/w/a.txt", true, false⟩ (by decide)

/-- C3: for every finalized (non-streaming) invocation of any of the five
batch tools, if the approval request was made and returned `false`, then
no underlying filesystem operation is performed and no tool result is
pushed (the trace records the approval request and nothing else). -/
theorem denial_zero_side_effects :
    (∀ (env : DeleteEnv) (params : DeleteParams),
       ((deleteItemsTool env params).approvalAsked).isSome → env.approve = false →
       (deleteItemsTool env params).calls = [] ∧ (deleteItemsTool env params).results = [] ∧
         (deleteItemsTool env params).pushed = []) ∧
    (∀ (env : WriteEnv) (params : WriteParams),
       ((writeFilesTool env params).approvalAsked).isSome → env.approve = false →
       (writeFilesTool env params).mkdirCalls = [] ∧ (writeFilesTool env params).writeCalls = [] ∧
         (writeFilesTool env params).results = [] ∧ (writeFilesTool env params).pushed = []) ∧
    (∀ (env : ReadEnv) (params : ReadParams),
       ((readFilesTool env params).approvalAsked).isSome → env.approve = false →
       (readFilesTool env params).countCalls = [] ∧ (readFilesTool env params).binCalls = [] ∧
         (readFilesTool env params).readLinesCalls = [] ∧
         (readFilesTool env params).defsCalls = [] ∧
         (readFilesTool env params).extractCalls = [] ∧
         (readFilesTool env params).results = [] ∧ (readFilesTool env params).pushed = []) ∧
    (∀ (env : CreateEnv) (params : CreateParams),
       ((createDirectoriesTool env params).approvalAsked).isSome → env.approve = false →
       (createDirectoriesTool env params).calls = [] ∧
         (createDirectoriesTool env params).results = [] ∧
         (createDirectoriesTool env params).pushed = []) ∧
    (∀ (env : ListEnv) (params : ListParams),
       ((listDirectoriesTool env params).approvalAsked).isSome → env.approve = false →
       (listDirectoriesTool env params).calls = [] ∧
         (listDirectoriesTool env params).results = [] ∧
         (listDirectoriesTool env params).pushed = []) := by
  refine ⟨?_, ?_, ?_, ?_, ?_⟩
  · intro env params hask hden
    rcases delete_denied_cases env params hden with h | h
    · exact h
    · exact absurd hask h
  · intro env params hask hden
    rcases write_denied_cases env params hden with h | h
    · exact h
    · exact absurd hask h
  · intro env params hask hden
    rcases read_denied_cases env params hden with h | h
    · exact h
    · exact absurd hask h
  · intro env params hask hden
    rcases create_denied_cases env params hden with h | h
    · exact h
    · exact absurd hask h
  · intro env params hask hden
    rcases list_denied_cases env params hden with h | h
    · exact h
    · exact absurd hask h

/-- Witness for C3: concrete denied invocations of all five tools show an
approval request with empty operation and output traces. -/
theorem denial_zero_side_effects_witness :
    ((deleteItemsTool wDeleteDeny ⟨some [some "a.txt"], false⟩).calls = [] ∧
      (deleteItemsTool wDeleteDeny ⟨some [some "a.txt"], false⟩).results = [] ∧
      (deleteItemsTool wDeleteDeny ⟨some [some "a.txt"], false⟩).pushed = []) ∧
    ((writeFilesTool wWriteDeny ⟨some [.item (some "x.txt") (some "hi")], false⟩).mkdirCalls = [] ∧
      (writeFilesTool wWriteDeny ⟨some [.item (some "x.txt") (some "hi")], false⟩).writeCalls = [] ∧
      (writeFilesTool wWriteDeny ⟨some [.item (some "x.txt") (some "hi")], false⟩).results = [] ∧
      (writeFilesTool wWriteDeny ⟨some [.item (some "x.txt") (some "hi")], false⟩).pushed = []) ∧
    ((readFilesTool wReadDeny ⟨some [some "a.txt"], none, none, false⟩).countCalls = [] ∧
      (readFilesTool wReadDeny ⟨some [some "a.txt"], none, none, false⟩).binCalls = [] ∧
      (readFilesTool wReadDeny ⟨some [some "a.txt"], none, none, false⟩).readLinesCalls = [] ∧
      (readFilesTool wReadDeny ⟨some [some "a.txt"], none, none, false⟩).defsCalls = [] ∧
      (readFilesTool wReadDeny ⟨some [some "a.txt"], none, none, false⟩).extractCalls = [] ∧
      (readFilesTool wReadDeny ⟨some [some "a.txt"], none, none, false⟩).results = [] ∧
      (readFilesTool wReadDeny ⟨some [some "a.txt"], none, none, false⟩).pushed = []) ∧
    ((createDirectoriesTool wCreateDeny ⟨some [some "d"], false⟩).calls = [] ∧
      (createDirectoriesTool wCreateDeny ⟨some [some "d"], false⟩).results = [] ∧
      (createDirectoriesTool wCreateDeny ⟨some [some "d"], false⟩).pushed = []) ∧
    ((listDirectoriesTool wListDeny ⟨some [some "d"], none, false⟩).calls = [] ∧
      (listDirectoriesTool wListDeny ⟨some [some "d"], none, false⟩).results = [] ∧
      (listDirectoriesTool wListDeny ⟨some [some "d"], none, false⟩).pushed = []) := by
  refine ⟨?_, ?_, ?_, ?_, ?_⟩
  · exact denial_zero_side_effects.1 wDeleteDeny ⟨some [some "a.txt"], false⟩ (by decide) rfl
  · exact denial_zero_side_effects.2.1 wWriteDeny ⟨some [.item (some "x.txt") (some "hi")], false⟩
      (by decide) rfl
  · exact denial_zero_side_effects.2.2.1 wReadDeny ⟨some [some "a.txt"], none, none, false⟩
      (by decide) rfl
  · exact denial_zero_side_effects.2.2.2.1 wCreateDeny ⟨some [some "d"], false⟩ (by decide) rfl
  · exact denial_zero_side_effects.2.2.2.2 wListDeny ⟨some [some "d"], none, false⟩
      (by decide) rfl

/-- A read environment whose execution-time policy answer denies every
path while the pre-approval policy allows everything. -/
def wReadExecDeny : ReadEnv :=
  ⟨wPath, none, some (fun _ => false), true, some 500,
   fun _ => .ok 600, fun _ => .ok false, fun _ => .ok "LINES",
   fun _ => .ok (some "DEFS"), fun _ => .ok "FULL", fun c n => c ++ "#" ++ toString n⟩

/-- A list environment whose execution-time policy answer denies every
path. -/
def wListExecDeny : ListEnv :=
  ⟨wPath, none, some (fun _ => false), true, none,
   fun _ => .ok (["f"], false), fun a _ _ _ => a⟩

/-- C4 counterexample: the claim asserts that every batch tool re-checks
access at execution time before each item's side effect, so that no side
effect is performed when the fresh check denies the path. The delete tool
refutes it: with an execution-time policy that denies `"a.txt"`, the
approved batch still performs the recursive permanent delete call and
records a success result — its execution loop (source lines 107–128)
contains no access check. -/
theorem recheck_counterexample :
    validateAccess wDeleteExecDeny.rooIgnoreExec "a.txt" = false ∧
    (deleteItemsTool wDeleteExecDeny ⟨some [some "a.txt"], false⟩).calls =
      [⟨"/w/a.txt", true, false⟩] ∧
    (deleteItemsTool wDeleteExecDeny ⟨some [some "a.txt"], false⟩).results =
      [⟨"a.txt", "success", none⟩] := by
  exact ⟨rfl, by decide, by decide⟩

/-- C4 (amended): only the read and list tools re-validate access at
execution time — inside their loops, an execution-time denial yields an
error item for that path with no collaborator call (read) or no glob call
(list). The delete, write and create tools perform each item's side
effect without any execution-time re-check: their entire traces are
invariant under the execution-time policy answer (and the create tool
ignores the pre-approval policy as well). -/
theorem recheck_only_in_read_and_list :
    (∀ (env : ReadEnv) (isR : Bool) (s e : Option Int) (m : Int) (i : Nat) (p : String),
       validateAccess env.rooIgnoreExec p = false →
       readItemStep env isR s e m i p =
         ⟨[], [], [], [], [], ⟨p, none, some (rooIgnoreError p), false, 0, ""⟩⟩) ∧
    (∀ (env : ListEnv) (rec sh : Bool) (i : Nat) (p : String),
       validateAccess env.rooIgnoreExec p = false →
       listItemStep env rec sh i p =
         ⟨[], ⟨p, none, some (rooIgnoreError p), false⟩, some ("listing directory " ++ p)⟩) ∧
    (∀ (pe : PathEnv) (ri rie f : Option (String → Bool)) (ap : Bool)
       (fd : Nat → Except FsError Unit) (params : DeleteParams),
       deleteItemsTool ⟨pe, ri, f, ap, fd⟩ params = deleteItemsTool ⟨pe, ri, rie, ap, fd⟩ params) ∧
    (∀ (pe : PathEnv) (dn : String → String) (ri rie f : Option (String → Bool)) (ap : Bool)
       (fe : String → Bool) (mk wf : Nat → Except FsError Unit) (params : WriteParams),
       writeFilesTool ⟨pe, dn, ri, f, ap, fe, mk, wf⟩ params =
         writeFilesTool ⟨pe, dn, ri, rie, ap, fe, mk, wf⟩ params) ∧
    (∀ (pe : PathEnv) (ri rie f g : Option (String → Bool)) (ap : Bool)
       (mk : Nat → Except FsError Unit) (params : CreateParams),
       createDirectoriesTool ⟨pe, f, g, ap, mk⟩ params =
         createDirectoriesTool ⟨pe, ri, rie, ap, mk⟩ params) := by
  refine ⟨?_, ?_, ?_, ?_, ?_⟩
  · intro env isR s e m i p h
    unfold readItemStep
    rw [if_pos]
    simp [h]
  · intro env rec sh i p h
    unfold listItemStep
    rw [if_pos]
    simp [h]
  · exact fun pe ri rie f ap fd params => deleteItemsTool_exec_indep pe ri rie f ap fd params
  · exact fun pe dn ri rie f ap fe mk wf params =>
      writeFilesTool_exec_indep pe dn ri rie f ap fe mk wf params
  · exact fun pe ri rie f g ap mk params =>
      createDirectoriesTool_policy_indep pe ri rie f g ap mk params

/-- Witness for the amended C4: concrete execution-time denials on read
and list yield error items with no collaborator calls, and concrete
delete/write/create traces are unchanged when the execution-time policy
flips from allow-all to deny-all. -/
theorem recheck_only_in_read_and_list_witness :
    readItemStep wReadExecDeny false none none 500 0 "a.txt" =
      ⟨[], [], [], [], [], ⟨"a.txt", none, some (rooIgnoreError "a.txt"), false, 0, ""⟩⟩ ∧
    listItemStep wListExecDeny false true 0 "d" =
      ⟨[], ⟨"d", none, some (rooIgnoreError "d"), false⟩, some ("listing directory " ++ "d")⟩ ∧
    deleteItemsTool ⟨wPath, none, some (fun _ => false), true, fun _ => .ok ()⟩
        ⟨some [some "a.txt"], false⟩ =
      deleteItemsTool ⟨wPath, none, none, true, fun _ => .ok ()⟩ ⟨some [some "a.txt"], false⟩ ∧
    writeFilesTool ⟨wPath, fun _ => "/w", none, some (fun _ => false), true, fun _ => false,
        fun _ => .ok (), fun _ => .ok ()⟩ ⟨some [.item (some "x.txt") (some "hi")], false⟩ =
      writeFilesTool ⟨wPath, fun _ => "/w", none, none, true, fun _ => false,
        fun _ => .ok (), fun _ => .ok ()⟩ ⟨some [.item (some "x.txt") (some "hi")], false⟩ ∧
    createDirectoriesTool ⟨wPath, some (fun _ => false), some (fun _ => false), true,
        fun _ => .ok ()⟩ ⟨some [some "d"], false⟩ =
      createDirectoriesTool ⟨wPath, none, none, true, fun _ => .ok ()⟩ ⟨some [some "d"], false⟩ := by
  refine ⟨?_, ?_, ?_, ?_, ?_⟩
  · exact recheck_only_in_read_and_list.1 wReadExecDeny false none none 500 0 "a.txt" rfl
  · exact recheck_only_in_read_and_list.2.1 wListExecDeny false true 0 "d" rfl
  · exact recheck_only_in_read_and_list.2.2.1 wPath none none (some (fun _ => false)) true
      (fun _ => .ok ()) ⟨some [some "a.txt"], false⟩
  · exact recheck_only_in_read_and_list.2.2.2.1 wPath (fun _ => "/w") none none
      (some (fun _ => false)) true (fun _ => false) (fun _ => .ok ()) (fun _ => .ok ())
      ⟨some [.item (some "x.txt") (some "hi")], false⟩
  · exact recheck_only_in_read_and_list.2.2.2.2 wPath none none (some (fun _ => false))
      (some (fun _ => false)) true (fun _ => .ok ()) ⟨some [some "d"], false⟩

/-- The items a write invocation actually processes: the validation
loop's surviving items after the error-index filter. -/
def writeAccepted (itemsInput : List RawWriteItem) : List WriteItem :=
  writeItemsToProcess itemsInput (writeValidateLoop itemsInput 0 [] []).1
    (writeValidateLoop itemsInput 0 [] []).2

/-- C1: for every accepted batch (non-empty after filtering) that passes
the policy pre-check and is approved, each batch tool produces exactly one
item result per filtered input item, in the same order, and the i-th
result's `path` field equals the i-th filtered item's original
user-supplied path (for the write tool, the i-th processed item's path).
Stated as one conjunct per tool: delete, read, create, list, write. -/
theorem one_result_per_filtered_item :
    (∀ (env : DeleteEnv) (params : DeleteParams) (input : List RawEntry),
       params.paths = some input → ¬ input.length = 0 →
       ¬ (filterValidPaths input).length = 0 →
       (∀ p ∈ filterValidPaths input, validateAccess env.rooIgnore p = true) →
       params.streaming = false → env.approve = true →
       (deleteItemsTool env params).results.map ItemResult.path = filterValidPaths input) ∧
    (∀ (env : ReadEnv) (params : ReadParams) (input : List RawEntry),
       params.paths = some input → ¬ input.length = 0 →
       ¬ (filterValidPaths input).length = 0 →
       ¬ (jsTruthy params.start_line = true ∧
         (params.start_line.bind jsParseInt).isNone = true) →
       ¬ (jsTruthy params.end_line = true ∧
         (params.end_line.bind jsParseInt).isNone = true) →
       (∀ s e, readStartLine params = some s → readEndLine params = some e → ¬ s > e) →
       (∀ p ∈ filterValidPaths input, validateAccess env.rooIgnore p = true) →
       params.streaming = false → env.approve = true →
       (readFilesTool env params).results.map FileResult.path = filterValidPaths input) ∧
    (∀ (env : CreateEnv) (params : CreateParams) (input : List RawEntry),
       params.paths = some input → ¬ input.length = 0 →
       ¬ (filterValidPaths input).length = 0 →
       params.streaming = false → env.approve = true →
       (createDirectoriesTool env params).results.map ItemResult.path = filterValidPaths input) ∧
    (∀ (env : ListEnv) (params : ListParams) (input : List RawEntry),
       params.paths = some input → ¬ input.length = 0 →
       ¬ (filterValidPaths input).length = 0 →
       (∀ p ∈ filterValidPaths input, validateAccess env.rooIgnore p = true) →
       params.streaming = false → env.approve = true →
       (listDirectoriesTool env params).results.map ListResult.path = filterValidPaths input) ∧
    (∀ (env : WriteEnv) (params : WriteParams) (itemsInput : List RawWriteItem),
       params.items = some itemsInput → ¬ itemsInput.length = 0 →
       ¬ ((writeValidateLoop itemsInput 0 [] []).1.length > 0 ∧
         ((writeValidateLoop itemsInput 0 [] []).1.any (fun err =>
           strContains err "missing a valid 'path'" && strContains err "missing 'content'"))
             = true) →
       ¬ ((writeAccepted itemsInput).length = 0 ∧ itemsInput.length > 0) →
       (∀ item ∈ writeAccepted itemsInput, validateAccess env.rooIgnore item.path = true) →
       params.streaming = false → env.approve = true →
       (writeFilesTool env params).results.map ItemResult.path =
         (writeAccepted itemsInput).map WriteItem.path) := by
  refine ⟨?_, ?_, ?_, ?_, ?_⟩
  · intro env params input hp hne hrne hall hstream happ
    rw [deleteItemsTool_approved env params input hp hne hrne hall hstream happ]
    exact deleteExec_results_map_path env _ 0
  · intro env params input hp hne hrne hs1 hs2 hs3 hall hstream happ
    rw [readFilesTool_run env params input hp hne hrne hs1 hs2 hs3,
      readAfterRange_approved env params.streaming (filterValidPaths input) _ _ _ hall hstream happ]
    exact readExec_results_map_path env _ _ _ _ _ 0
  · intro env params input hp hne hrne hstream happ
    rw [createDirectoriesTool_approved env params input hp hne hrne hstream happ]
    exact createExec_results_map_path env _ 0
  · intro env params input hp hne hrne hall hstream happ
    rw [listDirectoriesTool_approved env params input hp hne hrne hall hstream happ]
    exact listExec_results_map_path env _ _ _ 0
  · intro env params itemsInput hp hne hflag hitems hall hstream happ
    rw [writeFilesTool_approved env params itemsInput hp hne hflag hitems hall hstream happ]
    exact writeExec_results_map_path env _ 0

/-- Witness for C1: concrete approved one-item batches on all five tools
yield exactly the filtered input paths, in order. -/
theorem one_result_per_filtered_item_witness :
    (deleteItemsTool wDelete ⟨some [some "a.txt", some " "], false⟩).results.map ItemResult.path =
      ["a.txt"] ∧
    (readFilesTool wRead ⟨some [some "a.txt"], none, none, false⟩).results.map FileResult.path =
      ["a.txt"] ∧
    (createDirectoriesTool wCreate ⟨some [some "d"], false⟩).results.map ItemResult.path =
      ["d"] ∧
    (listDirectoriesTool wList ⟨some [some "d"], none, false⟩).results.map ListResult.path =
      ["d"] ∧
    (writeFilesTool wWrite ⟨some [.item (some "x.txt") (some "")], false⟩).results.map
      ItemResult.path = ["x.txt"] := by
  refine ⟨?_, ?_, ?_, ?_, ?_⟩
  · have h := one_result_per_filtered_item.1 wDelete ⟨some [some "a.txt", some " "], false⟩
      [some "a.txt", some " "] rfl (by decide) (by decide) (fun p _ => rfl) rfl rfl
    rw [show filterValidPaths [some "a.txt", some " "] = ["a.txt"] from rfl] at h
    exact h
  · have h := one_result_per_filtered_item.2.1 wRead ⟨some [some "a.txt"], none, none, false⟩
      [some "a.txt"] rfl (by decide) (by decide) (by decide) (by decide)
      (fun s e hs _ => by simp [readStartLine, jsTruthy] at hs) (fun p _ => rfl) rfl rfl
    rw [show filterValidPaths [some "a.txt"] = ["a.txt"] from rfl] at h
    exact h
  · have h := one_result_per_filtered_item.2.2.1 wCreate ⟨some [some "d"], false⟩
      [some "d"] rfl (by decide) (by decide) rfl rfl
    rw [show filterValidPaths [some "d"] = ["d"] from rfl] at h
    exact h
  · have h := one_result_per_filtered_item.2.2.2.1 wList ⟨some [some "d"], none, false⟩
      [some "d"] rfl (by decide) (by decide) (fun p _ => rfl) rfl rfl
    rw [show filterValidPaths [some "d"] = ["d"] from rfl] at h
    exact h
  · have h := one_result_per_filtered_item.2.2.2.2 wWrite
      ⟨some [.item (some "x.txt") (some "")], false⟩ [.item (some "x.txt") (some "")] rfl
      (by decide) (by decide) (by decide) (fun item _ => rfl) rfl rfl
    rw [show (writeAccepted [.item (some "x.txt") (some "")]).map WriteItem.path = ["x.txt"]
      from rfl] at h
    exact h

/-- C2: a failure on item i never prevents items i+1..N from being
attempted. First conjunct: for an approved delete batch `[A, B]` whose
first delete rejects and whose second succeeds, the result list is
exactly `[{A, error}, {B, success}]` (with the not-found message when the
failure is a `FileNotFound`, the raw message otherwise). Second and third
conjuncts: for any approved delete or read batch, one result is produced
per filtered item whatever the per-item outcomes were — never an empty or
short-circuited result set. -/
theorem failure_does_not_stop_batch :
    (∀ (env : DeleteEnv) (params : DeleteParams) (input : List RawEntry) (a b : String)
       (e : FsError),
       params.paths = some input → ¬ input.length = 0 →
       filterValidPaths input = [a, b] →
       (∀ p ∈ filterValidPaths input, validateAccess env.rooIgnore p = true) →
       params.streaming = false → env.approve = true →
       env.fsDelete 0 = .error e → env.fsDelete 1 = .ok () →
       (deleteItemsTool env params).results =
         [⟨a, "error", some (if e.code = some "FileNotFound"
             then "File or directory not found." else errMessage e)⟩,
          ⟨b, "success", none⟩]) ∧
    (∀ (env : DeleteEnv) (params : DeleteParams) (input : List RawEntry),
       params.paths = some input → ¬ input.length = 0 →
       ¬ (filterValidPaths input).length = 0 →
       (∀ p ∈ filterValidPaths input, validateAccess env.rooIgnore p = true) →
       params.streaming = false → env.approve = true →
       (deleteItemsTool env params).results.length = (filterValidPaths input).length) ∧
    (∀ (env : ReadEnv) (params : ReadParams) (input : List RawEntry),
       params.paths = some input → ¬ input.length = 0 →
       ¬ (filterValidPaths input).length = 0 →
       ¬ (jsTruthy params.start_line = true ∧
         (params.start_line.bind jsParseInt).isNone = true) →
       ¬ (jsTruthy params.end_line = true ∧
         (params.end_line.bind jsParseInt).isNone = true) →
       (∀ s e, readStartLine params = some s → readEndLine params = some e → ¬ s > e) →
       (∀ p ∈ filterValidPaths input, validateAccess env.rooIgnore p = true) →
       params.streaming = false → env.approve = true →
       (readFilesTool env params).results.length = (filterValidPaths input).length) := by
  refine ⟨?_, ?_, ?_⟩
  · intro env params input a b e hp hne hfilter hall hstream happ hfs0 hfs1
    have hrne : ¬ (filterValidPaths input).length = 0 := by rw [hfilter]; simp
    rw [deleteItemsTool_approved env params input hp hne hrne hall hstream happ, hfilter]
    dsimp only
    simp only [deleteExec, deleteItemStep, hfs0, hfs1]
    by_cases hc : e.code = some "FileNotFound" <;> simp [hc]
  · intro env params input hp hne hrne hall hstream happ
    rw [deleteItemsTool_approved env params input hp hne hrne hall hstream happ]
    exact deleteExec_results_length env _ 0
  · intro env params input hp hne hrne hs1 hs2 hs3 hall hstream happ
    rw [readFilesTool_run env params input hp hne hrne hs1 hs2 hs3,
      readAfterRange_approved env params.streaming (filterValidPaths input) _ _ _ hall hstream happ]
    exact readExec_results_length env _ _ _ _ _ 0

/-- Witness for C2: a concrete delete batch `["a.txt", "b.txt"]` whose
first delete fails with a permission error and whose second succeeds
yields exactly the error-then-success result pair; a concrete read batch
yields one result per item. -/
theorem failure_does_not_stop_batch_witness :
    (deleteItemsTool wDeleteMixed ⟨some [some "a.txt", some "b.txt"], false⟩).results =
      [⟨"a.txt", "error", some "permission denied"⟩, ⟨"b.txt", "success", none⟩] ∧
    (deleteItemsTool wDeleteMixed ⟨some [some "a.txt", some "b.txt"], false⟩).results.length = 2 ∧
    (readFilesTool wRead ⟨some [some "a.txt"], none, none, false⟩).results.length = 1 := by
  refine ⟨?_, ?_, ?_⟩
  · have h := failure_does_not_stop_batch.1 wDeleteMixed
      ⟨some [some "a.txt", some "b.txt"], false⟩ [some "a.txt", some "b.txt"]
      "a.txt" "b.txt" ⟨some "EPERM", some "permission denied"⟩ rfl (by decide) (by decide)
      (fun p _ => rfl) rfl rfl rfl rfl
    rw [show (if (⟨some "EPERM", some "permission denied"⟩ : FsError).code = some "FileNotFound"
        then "File or directory not found."
        else errMessage ⟨some "EPERM", some "permission denied"⟩) = "permission denied"
      from rfl] at h
    exact h
  · have h := failure_does_not_stop_batch.2.1 wDeleteMixed
      ⟨some [some "a.txt", some "b.txt"], false⟩ [some "a.txt", some "b.txt"] rfl
      (by decide) (by decide) (fun p _ => rfl) rfl rfl
    rw [show (filterValidPaths [some "a.txt", some "b.txt"]).length = 2 from rfl] at h
    exact h
  · have h := failure_does_not_stop_batch.2.2 wRead ⟨some [some "a.txt"], none, none, false⟩
      [some "a.txt"] rfl (by decide) (by decide) (by decide) (by decide)
      (fun s e hs _ => by simp [readStartLine, jsTruthy] at hs) (fun p _ => rfl) rfl rfl
    rw [show (filterValidPaths [some "a.txt"]).length = 1 from rfl] at h
    exact h

/-- C5: for the path-based read, delete and list tools, if any filtered
path is disallowed by the ignore policy, the whole batch is rejected
before approval is ever requested — the trace contains no approval
request, no per-item operation and no result, only the single aggregated
error naming the disallowed (readable) paths. The create-directories tool
does not enforce this pre-check: with the same kind of denying policy it
still requests approval and, once approved, performs one creation per
filtered path. -/
theorem policy_precheck_all_but_create :
    (∀ (env : ReadEnv) (params : ReadParams) (input : List RawEntry),
       params.paths = some input → ¬ input.length = 0 →
       ¬ (filterValidPaths input).length = 0 →
       ¬ (jsTruthy params.start_line = true ∧
         (params.start_line.bind jsParseInt).isNone = true) →
       ¬ (jsTruthy params.end_line = true ∧
         (params.end_line.bind jsParseInt).isNone = true) →
       (∀ s e, readStartLine params = some s → readEndLine params = some e → ¬ s > e) →
       (∃ p ∈ filterValidPaths input, validateAccess env.rooIgnore p = false) →
       readFilesTool env params =
         { ReadTrace.empty with
           sayEvents := [("rooignore_error",
             rooIgnoreError (String.intercalate ", "
               (disallowedOf (pathInfos env.penv env.rooIgnore (filterValidPaths input)))))],
           pushed := [toolError (rooIgnoreError (String.intercalate ", "
             (disallowedOf (pathInfos env.penv env.rooIgnore (filterValidPaths input)))))] }) ∧
    (∀ (env : DeleteEnv) (params : DeleteParams) (input : List RawEntry),
       params.paths = some input → ¬ input.length = 0 →
       ¬ (filterValidPaths input).length = 0 →
       (∃ p ∈ filterValidPaths input, validateAccess env.rooIgnore p = false) →
       deleteItemsTool env params =
         { DeleteTrace.empty with
           sayEvents := [("rooignore_error",
             rooIgnoreError ("Deletion prevented for ignored path(s): "
               ++ String.intercalate ", "
                 (deleteDisallowedPaths env (filterValidPaths input))))],
           pushed := [toolError (rooIgnoreError ("Deletion prevented for ignored path(s): "
             ++ String.intercalate ", "
               (deleteDisallowedPaths env (filterValidPaths input))))] }) ∧
    (∀ (env : ListEnv) (params : ListParams) (input : List RawEntry),
       params.paths = some input → ¬ input.length = 0 →
       ¬ (filterValidPaths input).length = 0 →
       (∃ p ∈ filterValidPaths input, validateAccess env.rooIgnore p = false) →
       listDirectoriesTool env params =
         { ListTrace.empty with
           sayEvents := [("rooignore_error",
             rooIgnoreError (String.intercalate ", "
               (disallowedOf (pathInfos env.penv env.rooIgnore (filterValidPaths input)))))],
           pushed := [toolError (rooIgnoreError (String.intercalate ", "
             (disallowedOf (pathInfos env.penv env.rooIgnore (filterValidPaths input)))))] }) ∧
    (∀ (env : CreateEnv) (params : CreateParams) (input : List RawEntry),
       params.paths = some input → ¬ input.length = 0 →
       ¬ (filterValidPaths input).length = 0 →
       params.streaming = false → env.approve = true →
       (∃ p ∈ filterValidPaths input, validateAccess env.rooIgnore p = false) →
       (createDirectoriesTool env params).approvalAsked =
         some (createApprovalReq env (filterValidPaths input)) ∧
       (createDirectoriesTool env params).calls.length = (filterValidPaths input).length) := by
  refine ⟨?_, ?_, ?_, ?_⟩
  · intro env params input hp hne hrne hs1 hs2 hs3 hdis
    rw [readFilesTool_run env params input hp hne hrne hs1 hs2 hs3]
    exact readAfterRange_policy_rejected env params.streaming (filterValidPaths input) _ _ _ hdis
  · intro env params input hp hne hrne hdis
    exact delete_policy_rejected env params input hp hne hrne hdis
  · intro env params input hp hne hrne hdis
    exact list_policy_rejected env params input hp hne hrne hdis
  · intro env params input hp hne hrne hstream happ hdis
    rw [createDirectoriesTool_approved env params input hp hne hrne hstream happ]
    exact ⟨rfl, createExec_calls_length env _ 0⟩

/-- Witness for C5: under a deny-all policy, concrete read, delete and
list batches are rejected before approval with the aggregated error,
while a concrete create batch is still approved and performs its
creation. -/
theorem policy_precheck_all_but_create_witness :
    readFilesTool wReadIgnoreAll ⟨some [some "a.txt"], none, none, false⟩ =
      { ReadTrace.empty with
        sayEvents := [("rooignore_error", rooIgnoreError "a.txt")],
        pushed := [toolError (rooIgnoreError "a.txt")] } ∧
    deleteItemsTool wDeleteIgnoreAll ⟨some [some "a.txt"], false⟩ =
      { DeleteTrace.empty with
        sayEvents := [("rooignore_error",
          rooIgnoreError "Deletion prevented for ignored path(s): a.txt")],
        pushed := [toolError (rooIgnoreError "Deletion prevented for ignored path(s): a.txt")] } ∧
    listDirectoriesTool wListIgnoreAll ⟨some [some "d"], none, false⟩ =
      { ListTrace.empty with
        sayEvents := [("rooignore_error", rooIgnoreError "d")],
        pushed := [toolError (rooIgnoreError "d")] } ∧
    (createDirectoriesTool wCreateIgnoreAll ⟨some [some "d"], false⟩).approvalAsked =
      some (createApprovalReq wCreateIgnoreAll ["d"]) ∧
    (createDirectoriesTool wCreateIgnoreAll ⟨some [some "d"], false⟩).calls.length = 1 := by
  refine ⟨?_, ?_, ?_, ?_⟩
  · have h := policy_precheck_all_but_create.1 wReadIgnoreAll
      ⟨some [some "a.txt"], none, none, false⟩ [some "a.txt"] rfl (by decide) (by decide)
      (by decide) (by decide)
      (fun s e hs _ => by simp [readStartLine, jsTruthy] at hs)
      ⟨"a.txt", by decide, rfl⟩
    rw [show String.intercalate ", " (disallowedOf (pathInfos wReadIgnoreAll.penv
      wReadIgnoreAll.rooIgnore (filterValidPaths [some "a.txt"]))) = "a.txt" from rfl] at h
    exact h
  · have h := policy_precheck_all_but_create.2.1 wDeleteIgnoreAll ⟨some [some "a.txt"], false⟩
      [some "a.txt"] rfl (by decide) (by decide) ⟨"a.txt", by decide, rfl⟩
    rw [show "Deletion prevented for ignored path(s): " ++ String.intercalate ", "
      (deleteDisallowedPaths wDeleteIgnoreAll (filterValidPaths [some "a.txt"])) =
      "Deletion prevented for ignored path(s): a.txt" from rfl] at h
    exact h
  · have h := policy_precheck_all_but_create.2.2.1 wListIgnoreAll ⟨some [some "d"], none, false⟩
      [some "d"] rfl (by decide) (by decide) ⟨"d", by decide, rfl⟩
    rw [show String.intercalate ", " (disallowedOf (pathInfos wListIgnoreAll.penv
      wListIgnoreAll.rooIgnore (filterValidPaths [some "d"]))) = "d" from rfl] at h
    exact h
  · have h := policy_precheck_all_but_create.2.2.2 wCreateIgnoreAll ⟨some [some "d"], false⟩
      [some "d"] rfl (by decide) (by decide) rfl rfl ⟨"d", by decide, rfl⟩
    rw [show filterValidPaths [some "d"] = ["d"] from rfl] at h
    exact ⟨h.1, by rw [h.2]; rfl⟩

/-- A delete environment whose first delete fails with `FileNotFound` and
whose second fails with a permission-style error. -/
def wDeleteNotFoundThenPerm : DeleteEnv :=
  ⟨wPath, none, none, true,
   fun i => if i = 0 then .error ⟨some "FileNotFound", some "gone"⟩
            else .error ⟨some "EPERM", some "permission denied"⟩⟩

/-- C6: within an approved delete batch, an item whose underlying delete
fails with the `FileNotFound` code yields an error result with exactly
"File or directory not found." and `handleError` is NOT invoked for that
item, while any other failure yields an error result carrying the raw
message (`error.message || "Unknown error"`) and `handleError` IS invoked
for it. -/
theorem delete_notfound_vs_generic :
    ∀ (env : DeleteEnv) (params : DeleteParams) (input : List RawEntry),
      params.paths = some input → ¬ input.length = 0 →
      ¬ (filterValidPaths input).length = 0 →
      (∀ p ∈ filterValidPaths input, validateAccess env.rooIgnore p = true) →
      params.streaming = false → env.approve = true →
      ∀ (i : Nat) (p : String) (e : FsError),
        (filterValidPaths input)[i]? = some p → env.fsDelete i = .error e →
        ((e.code = some "FileNotFound" →
           (deleteItemsTool env params).results[i]? =
             some ⟨p, "error", some "File or directory not found."⟩ ∧
           ∀ a, (i, a) ∉ (deleteItemsTool env params).handleErrorCalls) ∧
         (¬ e.code = some "FileNotFound" →
           (deleteItemsTool env params).results[i]? =
             some ⟨p, "error", some (errMessage e)⟩ ∧
           (i, "deleting " ++ p) ∈ (deleteItemsTool env params).handleErrorCalls)) := by
  intro env params input hp hne hrne hall hstream happ i p e hip hfs
  rw [deleteItemsTool_approved env params input hp hne hrne hall hstream happ]
  dsimp only
  constructor
  · intro hc
    constructor
    · rw [deleteExec_results_getElem? env (filterValidPaths input) 0 i, hip]
      simp [Nat.zero_add, deleteItemStep, hfs, hc]
    · intro a hmem
      have hmem' : (0 + i, a) ∈ (deleteExec env 0 (filterValidPaths input)).handleErrorCalls := by
        rwa [Nat.zero_add]
      rcases (deleteExec_handle_mem env (filterValidPaths input) 0 i a).mp hmem' with
        ⟨q, hq, hstep⟩
      rw [hip] at hq
      injection hq with hq
      subst hq
      rw [Nat.zero_add] at hstep
      simp [deleteItemStep, hfs, hc] at hstep
  · intro hc
    constructor
    · rw [deleteExec_results_getElem? env (filterValidPaths input) 0 i, hip]
      simp [Nat.zero_add, deleteItemStep, hfs, hc]
    · have hmem := (deleteExec_handle_mem env (filterValidPaths input) 0 i
        ("deleting " ++ p)).mpr ⟨p, hip, by rw [Nat.zero_add]; simp [deleteItemStep, hfs, hc]⟩
      rwa [Nat.zero_add] at hmem

/-- Witness for C6: in a concrete approved batch whose first delete fails
with `FileNotFound` and whose second fails with `EPERM`, the first result
carries the fixed not-found message with no `handleError` call for it,
and the second carries the raw message with a `handleError` call. -/
theorem delete_notfound_vs_generic_witness :
    ((deleteItemsTool wDeleteNotFoundThenPerm ⟨some [some "a.txt", some "b.txt"], false⟩).results[0]? =
      some ⟨"a.txt", "error", some "File or directory not found."⟩ ∧
      (∀ a, (0, a) ∉ (deleteItemsTool wDeleteNotFoundThenPerm
        ⟨some [some "a.txt", some "b.txt"], false⟩).handleErrorCalls)) ∧
    ((deleteItemsTool wDeleteNotFoundThenPerm ⟨some [some "a.txt", some "b.txt"], false⟩).results[1]? =
      some ⟨"b.txt", "error", some "permission denied"⟩ ∧
      (1, "deleting " ++ "b.txt") ∈ (deleteItemsTool wDeleteNotFoundThenPerm
        ⟨some [some "a.txt", some "b.txt"], false⟩).handleErrorCalls) := by
  constructor
  · exact (delete_notfound_vs_generic wDeleteNotFoundThenPerm
      ⟨some [some "a.txt", some "b.txt"], false⟩ [some "a.txt", some "b.txt"] rfl (by decide)
      (by decide) (fun p _ => rfl) rfl rfl 0 "a.txt" ⟨some "FileNotFound", some "gone"⟩
      (by decide) rfl).1 rfl
  · have h := (delete_notfound_vs_generic wDeleteNotFoundThenPerm
      ⟨some [some "a.txt", some "b.txt"], false⟩ [some "a.txt", some "b.txt"] rfl (by decide)
      (by decide) (fun p _ => rfl) rfl rfl 1 "b.txt" ⟨some "EPERM", some "permission denied"⟩
      (by decide) rfl).2 (by decide)
    rw [show errMessage ⟨some "EPERM", some "permission denied"⟩ = "permission denied"
      from rfl] at h
    exact h

/-- C7 counterexample: the claim asserts that ANY parsed `start_line >
end_line` pair rejects the whole batch before any file is touched. With
`start_line = "1"` and `end_line = "0"` both parse (1 > 0), yet the
clamped 0-based values are both 0, so the tool does NOT reject: it
requests approval and invokes the line-read collaborator with bounds
(0, 0) — a file is touched. -/
theorem range_rejected_counterexample :
    jsParseInt "1" = some 1 ∧ jsParseInt "0" = some 0 ∧ (1 : Int) > 0 ∧
    (readFilesTool wRead ⟨some [some "a.txt"], some "1", some "0", false⟩).readLinesCalls =
      [⟨"/w/a.txt", some 0, some 0⟩] ∧
    ((readFilesTool wRead ⟨some [some "a.txt"], some "1", some "0", false⟩).approvalAsked).isSome
      = true := by
  exact ⟨rfl, rfl, by decide, by decide, by decide⟩

/-- C7 (amended): the read tool rejects the whole batch before touching
any file whenever the CLAMPED 0-based bounds are inverted, that is when
`max 0 (start-1) > max 0 (end-1)` (equivalently, whenever `start > end`
with `end ≥ 1`; for `end ≤ 0` the clamp can mask the inversion). In that
case no line-count, line-read, outline or text-extraction collaborator is
invoked, no approval is requested, and the single reported error contains
"start_line > end_line". -/
theorem range_rejected_before_any_file :
    ∀ (env : ReadEnv) (params : ReadParams) (input : List RawEntry) (s e : Int),
      params.paths = some input → ¬ input.length = 0 →
      ¬ (filterValidPaths input).length = 0 →
      readStartLine params = some s → readEndLine params = some e → s > e →
      readFilesTool env params =
        { ReadTrace.empty with
          sayEvents := [("error", "start_line (" ++ toString (s + 1)
            ++ ") cannot be greater than end_line (" ++ toString (e + 1) ++ ").")],
          pushed := [toolError "Invalid line range: start_line > end_line."] } ∧
      strContains (toolError "Invalid line range: start_line > end_line.")
        "start_line > end_line" = true := by
  intro env params input s e hp hne hrne hsl hel hgt
  have hs1 : ¬ (jsTruthy params.start_line = true ∧
      (params.start_line.bind jsParseInt).isNone = true) := by
    rintro ⟨ht, hn⟩
    rw [readStartLine, if_pos ht] at hsl
    rw [Option.isNone_iff_eq_none] at hn
    rw [hn] at hsl
    simp at hsl
  have hs2 : ¬ (jsTruthy params.end_line = true ∧
      (params.end_line.bind jsParseInt).isNone = true) := by
    rintro ⟨ht, hn⟩
    rw [readEndLine, if_pos ht] at hel
    rw [Option.isNone_iff_eq_none] at hn
    rw [hn] at hel
    simp at hel
  refine ⟨?_, by decide⟩
  unfold readFilesTool
  rw [hp]
  simp only [if_neg hne, if_neg hrne, if_neg hs1, if_neg hs2, hsl, hel]
  rw [if_pos hgt]

/-- Witness for the amended C7: with `start_line = "5"` and
`end_line = "3"` the concrete batch is rejected with the range error and
no collaborator call. -/
theorem range_rejected_before_any_file_witness :
    readFilesTool wRead ⟨some [some "a.txt"], some "5", some "3", false⟩ =
      { ReadTrace.empty with
        sayEvents := [("error", "start_line (5) cannot be greater than end_line (3).")],
        pushed := [toolError "Invalid line range: start_line > end_line."] } ∧
    strContains (toolError "Invalid line range: start_line > end_line.")
      "start_line > end_line" = true := by
  have h := range_rejected_before_any_file wRead ⟨some [some "a.txt"], some "5", some "3", false⟩
    [some "a.txt"] 4 2 rfl (by decide) (by decide) rfl rfl (by decide)
  constructor
  · have h1 := h.1
    rw [show toString ((4 : Int) + 1) = "5" from rfl, show toString ((2 : Int) + 1) = "3"
      from rfl] at h1
    exact h1
  · exact h.2

/-- C8: for a non-binary file with 600 counted lines, a configured
maximum of 500 and no explicit range, the read loop requests only the
first 500 lines (a `readLines` call with 0-based bounds (0, 499)), marks
the item truncated with `totalLines = 600`, and appends the outline
exactly when the outline collaborator returned non-empty content; the
serializer then renders the content followed by the trailer — which
contains "Showing only 500 of 600 total lines" — and the outline. -/
theorem truncation_trailer_and_outline :
    (∀ (env : ReadEnv) (i : Nat) (p rc : String) (dOpt : Option String),
       validateAccess env.rooIgnoreExec p = true →
       env.countLines i = .ok 600 →
       env.isBinaryFile i = .ok false →
       env.readLines i = .ok rc → rc.length > 0 →
       env.parseDefs i = .ok dOpt →
       readItemStep env false none none 500 i p =
         ⟨[env.penv.resolve p], [env.penv.resolve p],
          [⟨env.penv.resolve p, some 499, some 0⟩], [env.penv.resolve p], [],
          ⟨p, some (env.addLineNumbers rc 1), none, true, 600,
           (match dOpt with
            | some d => if d ≠ "" then "\n\n" ++ d else ""
            | none => "")⟩⟩) ∧
    (∀ (m : Int) (pth c : String) (err : Option String) (n : Nat) (scd : String),
       fileXml m ⟨pth, some c, err, true, n, scd⟩ =
         "  <file>\n    <path>" ++ pth ++ "</path>\n"
           ++ ("    <content>\n" ++ (c ++ truncationTrailer m n ++ scd) ++ "\n    </content>\n")
           ++ "  </file>\n") ∧
    strContains (truncationTrailer 500 600) "Showing only 500 of 600 total lines" = true := by
  refine ⟨?_, ?_, by decide⟩
  · intro env i p rc dOpt hv hcnt hbin hrl hrc hdefs
    unfold readItemStep readTotalLines readIsBinary readTruncPart readTruncCalls
    rw [hv, hcnt, hbin, hrl, hdefs]
    simp only [Bool.not_true]
    rw [if_neg (by simp)]
    rw [if_neg (by simp)]
    rw [if_pos (by norm_num)]
    rw [if_pos (by norm_num)]
    rw [if_pos (by norm_num)]
    dsimp only
    rw [if_pos hrc]
    norm_num
  · intro m pth c err n scd
    rfl

/-- Witness for C8: on a concrete environment with a 600-line file, a
500-line cap, content "LINES" and outline "DEFS", the step records the
(0, 499) read, the truncated result and the appended outline, and the
rendered element carries the "Showing only 500 of 600 total lines"
trailer. -/
theorem truncation_trailer_and_outline_witness :
    readItemStep wRead false none none 500 0 "a.txt" =
      ⟨["/w/a.txt"], ["/w/a.txt"], [⟨"/w/a.txt", some 499, some 0⟩], ["/w/a.txt"], [],
       ⟨"a.txt", some ("LINES" ++ "#" ++ "1"), none, true, 600, "\n\n" ++ "DEFS"⟩⟩ ∧
    fileXml 500 ⟨"a.txt", some "X", none, true, 600, "\n\nDEFS"⟩ =
      "  <file>\n    <path>" ++ "a.txt" ++ "</path>\n"
        ++ ("    <content>\n" ++ ("X" ++ truncationTrailer 500 600 ++ "\n\nDEFS")
          ++ "\n    </content>\n") ++ "  </file>\n" ∧
    strContains (truncationTrailer 500 600) "Showing only 500 of 600 total lines" = true := by
  refine ⟨?_, ?_, ?_⟩
  · have h := truncation_trailer_and_outline.1 wRead 0 "a.txt" "LINES" (some "DEFS") rfl rfl
      rfl rfl (by decide) rfl
    rw [show (match some "DEFS" with
      | some d => if d ≠ "" then "\n\n" ++ d else ""
      | none => "") = "\n\n" ++ "DEFS" from by decide] at h
    rw [show wRead.penv.resolve "a.txt" = "/w/a.txt" from rfl,
      show wRead.addLineNumbers "LINES" 1 = "LINES" ++ "#" ++ "1" from rfl] at h
    exact h
  · exact truncation_trailer_and_outline.2.1 500 "a.txt" "X" none 600 "\n\nDEFS"
  · exact truncation_trailer_and_outline.2.2

/-- C9: the write item `{path: "x.txt", content: ""}` passes validation
(empty string content is valid — no validation error is recorded), and an
approved invocation performs exactly one underlying write call whose
payload is the empty string (zero UTF-8 bytes) and yields a single
`success` item result. -/
theorem write_empty_content_roundtrip :
    ∀ (env : WriteEnv),
      validateAccess env.rooIgnore "x.txt" = true →
      env.approve = true →
      env.mkdir 0 = .ok () → env.writeFile 0 = .ok () →
      writeValidateLoop [.item (some "x.txt") (some "")] 0 [] [] = ([], [⟨"x.txt", ""⟩]) ∧
      (writeFilesTool env ⟨some [.item (some "x.txt") (some "")], false⟩).writeCalls =
        [⟨env.penv.resolve "x.txt", ""⟩] ∧
      (writeFilesTool env ⟨some [.item (some "x.txt") (some "")], false⟩).results =
        [⟨"x.txt", "success", none⟩] ∧
      ("" : String).utf8ByteSize = 0 := by
  intro env hv happ hmk hwf
  have hall : ∀ item ∈ writeItemsToProcess [.item (some "x.txt") (some "")]
      (writeValidateLoop [.item (some "x.txt") (some "")] 0 [] []).1
      (writeValidateLoop [.item (some "x.txt") (some "")] 0 [] []).2,
      validateAccess env.rooIgnore item.path = true := by
    intro item hmem
    rw [show writeItemsToProcess [.item (some "x.txt") (some "")]
      (writeValidateLoop [.item (some "x.txt") (some "")] 0 [] []).1
      (writeValidateLoop [.item (some "x.txt") (some "")] 0 [] []).2 =
      [⟨"x.txt", ""⟩] from rfl] at hmem
    rw [List.mem_singleton] at hmem
    rw [hmem]
    exact hv
  have hglue := writeFilesTool_approved env ⟨some [.item (some "x.txt") (some "")], false⟩
    [.item (some "x.txt") (some "")] rfl (by decide) (by decide) (by decide) hall rfl happ
  have hstep : writeItemStep env 0 ⟨"x.txt", ""⟩ =
      (if env.dirname (env.penv.resolve "x.txt") ≠ env.penv.resolve "x.txt" ∧
          env.dirname (env.penv.resolve "x.txt") ≠ env.penv.cwd ∧
          env.dirname (env.penv.resolve "x.txt") ≠ "."
       then ⟨[env.dirname (env.penv.resolve "x.txt")], [⟨env.penv.resolve "x.txt", ""⟩],
         ⟨"x.txt", "success", none⟩, none, true⟩
       else ⟨[], [⟨env.penv.resolve "x.txt", ""⟩], ⟨"x.txt", "success", none⟩, none, true⟩) := by
    unfold writeItemStep
    rw [hmk, hwf]
  have hcalls : (writeItemStep env 0 ⟨"x.txt", ""⟩).writeCalls =
      [⟨env.penv.resolve "x.txt", ""⟩] := by
    rw [hstep]; split <;> rfl
  have hres : (writeItemStep env 0 ⟨"x.txt", ""⟩).result = ⟨"x.txt", "success", none⟩ := by
    rw [hstep]; split <;> rfl
  rw [hglue]
  refine ⟨rfl, ?_, ?_, rfl⟩
  · show (writeExec env 0 [⟨"x.txt", ""⟩]).writeCalls = [⟨env.penv.resolve "x.txt", ""⟩]
    simp [writeExec, hcalls]
  · show (writeExec env 0 [⟨"x.txt", ""⟩]).results = [⟨"x.txt", "success", none⟩]
    simp [writeExec, hres]

/-- Witness for C9: the concrete environment writes `x.txt` with a
zero-byte payload and reports success. -/
theorem write_empty_content_roundtrip_witness :
    writeValidateLoop [.item (some "x.txt") (some "")] 0 [] [] = ([], [⟨"x.txt", ""⟩]) ∧
    (writeFilesTool wWrite ⟨some [.item (some "x.txt") (some "")], false⟩).writeCalls =
      [⟨"/w/x.txt", ""⟩] ∧
    (writeFilesTool wWrite ⟨some [.item (some "x.txt") (some "")], false⟩).results =
      [⟨"x.txt", "success", none⟩] ∧
    ("" : String).utf8ByteSize = 0 := by
  have h := write_empty_content_roundtrip wWrite rfl rfl rfl rfl
  rw [show wWrite.penv.resolve "x.txt" = "/w/x.txt" from rfl] at h
  exact h

end RooBatch
